import Mathlib

/-!
Verification of the soia schema compiler front-end (tokenizer/parser/resolver/
compatibility checker), shallowly embedded in Lean 4.

The embedding translates the TypeScript sources:
  * `compatibility_checker.ts` (primitive widening relation, record/type
    comparison with fuel for the recursive record graph),
  * `parser.ts` (`RecordBuilder`, `simpleHash`),
  * `module_set.ts` (`ModuleSet.parseAndResolve` pipeline, the type resolver,
    recursion classification, numbering constraints, constant lowering to
    dense JSON).

JavaScript-specific behaviors are modelled explicitly: `Array.prototype.sort`
with no comparator (lexicographic by decimal string), 32-bit `<<`/`|0`/`>>>`
arithmetic, `Set`/`Map` insertion order (association lists), and sparse array
assignment (`json[i] = v` pads with `undefined`).

`types.ts` and `literals.ts` are not part of the given sources; the data-model
shapes are reconstructed from their uses, and the literal-handling functions
are modelled from the spec and from `literals.test.ts` (marked
`Modelled from the spec:`).
-/

namespace Soia

/-- A single apostrophe, used when embedding source error messages. -/
def sq : String := "\x27"

/-- A token. The source `Token` carries `text`, `originalText`, `position`,
`colNumber` and a reference to its `CodeLine`; the embedding keeps the fields
the verified code reads: `text`, the owning module path (`line.modulePath`)
and `position`. Token identity (used for breaking-change deduplication) is the
pair (module path, position), as the spec's design notes prescribe for value
semantics. -/
structure Token where
  text : String
  modulePath : String
  position : Nat
deriving DecidableEq, Repr

/-- The nine primitive types of the schema language. -/
inductive Primitive where
  | bool
  | int32
  | int64
  | uint64
  | float32
  | float64
  | timestamp
  | string
  | bytes
deriving DecidableEq, Repr

/-- `recordType` tag: a record is a struct or an enum. -/
inductive RecordType where
  | struct
  | enum
deriving DecidableEq, Repr

/-- Numbering mode of a record: `""` (no numbered declaration seen yet),
`"implicit"`, `"explicit"`, or `"broken"`. -/
inductive Numbering where
  | empty
  | implicit
  | explicit
  | broken
deriving DecidableEq, Repr

/-- `Field.isRecursive`: `false`, `"soft"` or `"hard"`. -/
inductive Recursivity where
  | no
  | soft
  | hard
deriving DecidableEq, Repr

/-- A diagnostic: `{token, message?, expected?, errorIsInOtherModule?}`. -/
structure SoiaError where
  token : Token
  message : Option String := none
  expected : Option String := none
  errorIsInOtherModule : Bool := false
deriving DecidableEq, Repr

/-- The resolved key type of a keyed array (`FieldPath.keyType`): either a
primitive type or a reference to an enum record. The source stores a
`ResolvedType` here but only ever writes/reads a primitive or an enum record
reference. -/
inductive KeyType where
  | primitive (primitive : Primitive)
  | enumRef (key : String)
deriving DecidableEq, Repr

/-- A keyed-array field path (`[Item|a.b.c]`). The source also decorates each
path item with the field declaration it resolves to; that decoration is only
read by the (out-of-scope) language server and is omitted here. -/
structure FieldPath where
  pipeToken : Token
  path : List Token
  keyType : KeyType
deriving DecidableEq, Repr

/-- A resolved type. The record case keeps the fields the verified code
reads: the record key, its kind, and the reference token used for
diagnostics (the source's `ResolvedRecordRef` additionally carries the
name-part chain consumed only by the language server). -/
inductive ResolvedType where
  | primitive (primitive : Primitive)
  | array (item : ResolvedType) (key : Option FieldPath)
  | optional (other : ResolvedType)
  | record (key : String) (recordType : RecordType) (refToken : Token)
deriving DecidableEq, Repr

/-- An unresolved (parse-time) type. -/
inductive UnresolvedType where
  | primitive (primitive : Primitive)
  | array (item : UnresolvedType) (key : Option FieldPath)
  | optional (other : UnresolvedType)
  | record (nameParts : List Token) (absolute : Bool)
deriving DecidableEq, Repr

/-- A record field. `number` is `-1` while the field has no assigned number
(the parser's sentinel); `type` and `isRecursive` are the resolution-time
decorations. `inlineRecord` is handled by hoisting in `parseRecord` and is
not needed by the verified record-level code. -/
structure Field where
  name : Token
  number : Int
  unresolvedType : Option UnresolvedType := none
  type : Option ResolvedType := none
  isRecursive : Recursivity := .no
deriving DecidableEq, Repr

mutual
/-- A declaration stored in a record's `nameToDeclaration` map: a field or a
nested record. (`removed` declarations are consumed by the builder and do not
appear in the built record's declaration map.) -/
inductive RecDecl where
  | fieldDecl (f : Field)
  | recordDecl (r : RecordData)

/-- A built record (struct or enum). `nameToDeclaration` is an association
list in insertion order, exactly mirroring a JS string-keyed object whose
keys are identifiers. -/
inductive RecordData where
  | mk (key : String) (name : Token) (recordType : RecordType)
      (nameToDeclaration : List (String × RecDecl))
      (numbering : Numbering) (removedNumbers : List Int)
      (recordNumber : Option Int) (numSlots : Int)
      (numSlotsInclRemovedNumbers : Int)
end

def RecordData.key : RecordData → String
  | .mk k _ _ _ _ _ _ _ _ => k

def RecordData.name : RecordData → Token
  | .mk _ n _ _ _ _ _ _ _ => n

def RecordData.recordType : RecordData → RecordType
  | .mk _ _ rt _ _ _ _ _ _ => rt

def RecordData.nameToDeclaration : RecordData → List (String × RecDecl)
  | .mk _ _ _ m _ _ _ _ _ => m

def RecordData.numbering : RecordData → Numbering
  | .mk _ _ _ _ nb _ _ _ _ => nb

def RecordData.removedNumbers : RecordData → List Int
  | .mk _ _ _ _ _ rn _ _ _ => rn

def RecordData.recordNumber : RecordData → Option Int
  | .mk _ _ _ _ _ _ n _ _ => n

def RecordData.numSlots : RecordData → Int
  | .mk _ _ _ _ _ _ _ s _ => s

def RecordData.numSlotsInclRemovedNumbers : RecordData → Int
  | .mk _ _ _ _ _ _ _ _ s => s

/-- `record.fields`: the field declarations, in declaration-map order
(mirrors `declarations.filter(d => d.kind === "field")` in `build()`). -/
def RecordData.fields (r : RecordData) : List Field :=
  r.nameToDeclaration.filterMap fun d =>
    match d.2 with
    | .fieldDecl f => some f
    | .recordDecl _ => none

/-- `record.nestedRecords`. -/
def RecordData.nestedRecords (r : RecordData) : List RecordData :=
  r.nameToDeclaration.filterMap fun d =>
    match d.2 with
    | .fieldDecl _ => none
    | .recordDecl r => some r

/-- A record plus its ancestor chain and owning module path. -/
structure RecordLocation where
  record : RecordData
  recordAncestors : List RecordData
  modulePath : String

/-- `BeforeAfter<T>` from the compatibility checker. -/
structure BeforeAfter (α : Type) where
  before : α
  after : α
deriving DecidableEq, Repr

end Soia

namespace Soia

/-- A method declaration (`method Name(Req): Resp [= number];`). -/
structure Method where
  name : Token
  unresolvedRequestType : UnresolvedType
  unresolvedResponseType : UnresolvedType
  requestType : Option ResolvedType := none
  responseType : Option ResolvedType := none
  number : Int
  hasExplicitNumber : Bool

/-- An `Expression` names the path from a checked record or method to the
type under comparison, for diagnostics. -/
inductive Expression where
  | requestType (methodName : Token)
  | responseType (methodName : Token)
  | record (recordName : Token)
  | item (arrayExpression : Expression)
  | optionalValue (optionalExpression : Expression)
  | property (structExpression : Expression) (fieldName : Token)
  | asVariant (enumExpression : Expression) (variantName : Token)

/-- A backward-incompatible change reported by the compatibility checker. -/
inductive BreakingChange where
  | illegalTypeChange (expression : BeforeAfter Expression)
      (type : BeforeAfter ResolvedType)
  | missingSlots (record : BeforeAfter RecordLocation)
      (recordExpression : BeforeAfter Expression)
      (missingRangeStart : Int) (missingRangeEnd : Int)
  | missingRecord (record : RecordLocation) (recordNumber : Int)
  | missingMethod (method : Method)
  | recordKindChange (record : BeforeAfter RecordLocation)
      (recordExpression : BeforeAfter Expression)
      (recordType : BeforeAfter RecordType)
  | removedNumberReintroduced (record : BeforeAfter RecordLocation)
      (recordExpression : BeforeAfter Expression)
      (removedNumber : Int) (reintroducedAs : Token)
  | missingVariant (record : BeforeAfter RecordLocation)
      (enumEpression : BeforeAfter Expression)
      (variantName : Token) (number : Int)
  | variantKindChange (record : BeforeAfter RecordLocation)
      (enumEpression : BeforeAfter Expression)
      (variantName : BeforeAfter Token) (number : Int)

/-- The discriminant string of a breaking change (`BreakingChange["kind"]`). -/
def BreakingChange.kind : BreakingChange → String
  | .illegalTypeChange _ _ => "illegal-type-change"
  | .missingSlots _ _ _ _ => "missing-slots"
  | .missingRecord _ _ => "missing-record"
  | .missingMethod _ => "missing-method"
  | .recordKindChange _ _ _ => "record-kind-change"
  | .removedNumberReintroduced _ _ _ _ => "removed-number-reintroduced"
  | .missingVariant _ _ _ _ => "missing-variant"
  | .variantKindChange _ _ _ _ => "variant-kind-change"

/-- `getTokenForExpression`. -/
def getTokenForExpression : Expression → Token
  | .item e => getTokenForExpression e
  | .optionalValue e => getTokenForExpression e
  | .property _ fieldName => fieldName
  | .asVariant _ variantName => variantName
  | .record recordName => recordName
  | .requestType methodName => methodName
  | .responseType methodName => methodName

/-- `getTokenForBreakingChange`. -/
def getTokenForBreakingChange : BreakingChange → Option Token
  | .illegalTypeChange expression _ => some (getTokenForExpression expression.after)
  | .missingSlots record _ _ _ => some record.after.record.name
  | .recordKindChange record _ _ => some record.after.record.name
  | .variantKindChange record _ _ _ => some record.after.record.name
  | .missingVariant record _ _ _ => some record.after.record.name
  | .removedNumberReintroduced _ _ _ reintroducedAs => some reintroducedAs
  | .missingRecord _ _ => none
  | .missingMethod _ => none

/-- `primitiveTypesAreCompatible`: the directed widening relation on
primitive types, translated switch case by switch case. -/
def primitiveTypesAreCompatible (type : BeforeAfter Primitive) : Bool :=
  match type.before with
  | .bool =>
      type.after = .bool || type.after = .int32 || type.after = .int64 ||
      type.after = .uint64 || type.after = .float32 || type.after = .float64
  | .int32 =>
      type.after = .int32 || type.after = .int64 || type.after = .uint64 ||
      type.after = .float32 || type.after = .float64
  | .int64 =>
      type.after = .int64 || type.after = .float32 || type.after = .float64
  | .uint64 =>
      type.after = .uint64 || type.after = .float32 || type.after = .float64
  | .float32 => type.after = .float32 || type.after = .float64
  | .float64 => type.after = .float32 || type.after = .float64
  | .timestamp => type.after = type.before
  | .string => type.after = type.before
  | .bytes => type.after = type.before

/-- `indexFields`: map from field number to field (later fields with the same
number overwrite earlier ones, like `Map.set`). -/
def indexFields (record : RecordData) : List (Int × Field) :=
  record.fields.foldl (fun acc field =>
    (acc.filter fun e => e.1 ≠ field.number) ++ [(field.number, field)]) []

/-- Mutable state of `BackwardCompatibilityChecker`: accumulated breaking
changes (in push order), the per-token set of already-reported change kinds,
and the set of already-visited record-key pairs. -/
structure CheckerState where
  breakingChanges : List BreakingChange
  tokenToBreakingChangeKinds : List (Token × List String)
  seenRecordKeys : List String

/-- The empty checker state. -/
def CheckerState.init : CheckerState := ⟨[], [], []⟩

/-- `pushBreakingChange`: deduplicates per (anchor token, change kind). -/
def pushBreakingChange (st : CheckerState) (breakingChange : BreakingChange) :
    CheckerState :=
  match getTokenForBreakingChange breakingChange with
  | none => st
  | some token =>
    let kinds := (st.tokenToBreakingChangeKinds.lookup token).getD []
    if breakingChange.kind ∈ kinds then st
    else
      { st with
        breakingChanges := st.breakingChanges ++ [breakingChange]
        tokenToBreakingChangeKinds :=
          (token, kinds ++ [breakingChange.kind]) ::
            st.tokenToBreakingChangeKinds.filter fun e => e.1 ≠ token }

/-- The two record maps the checker reads (`moduleSet.before/after.recordMap`). -/
structure CheckerMaps where
  before : List (String × RecordLocation)
  after : List (String × RecordLocation)

mutual
/-- `BackwardCompatibilityChecker.checkType`. `fuel` bounds the descent into
the (possibly cyclic) record graph; the primitive/array/optional structure is
handled within one fuel step, mirroring the source's recursion, which is
bounded by the `seenRecordKeys` memoization. -/
def checkType (ms : CheckerMaps) (fuel : Nat) (type : BeforeAfter ResolvedType)
    (expression : BeforeAfter Expression) (st : CheckerState) : CheckerState :=
  match fuel with
  | 0 => st
  | fuel + 1 =>
    let illegalTypeChange := BreakingChange.illegalTypeChange expression type
    match type.before with
    | .array itemBefore _ =>
      match type.after with
      | .array itemAfter _ =>
        checkType ms fuel ⟨itemBefore, itemAfter⟩
          ⟨.item expression.before, .item expression.after⟩ st
      | _ => pushBreakingChange st illegalTypeChange
    | .optional otherBefore =>
      match type.after with
      | .optional otherAfter =>
        checkType ms fuel ⟨otherBefore, otherAfter⟩
          ⟨.optionalValue expression.before, .optionalValue expression.after⟩ st
      | _ => pushBreakingChange st illegalTypeChange
    | .record keyBefore _ _ =>
      match type.after with
      | .record keyAfter _ _ =>
        -- The source reads `recordMap.get(key)!`; both keys are present in
        -- any fully resolved module set, so the lookup never fails there.
        match ms.before.lookup keyBefore, ms.after.lookup keyAfter with
        | some recordBefore, some recordAfter =>
          checkRecord ms fuel ⟨recordBefore, recordAfter⟩ expression st
        | _, _ => st
      | _ => pushBreakingChange st illegalTypeChange
    | .primitive primitiveBefore =>
      match type.after with
      | .primitive primitiveAfter =>
        if primitiveTypesAreCompatible ⟨primitiveBefore, primitiveAfter⟩ then st
        else pushBreakingChange st illegalTypeChange
      | _ => pushBreakingChange st illegalTypeChange
termination_by (fuel, 0)

/-- `BackwardCompatibilityChecker.checkRecord`. -/
def checkRecord (ms : CheckerMaps) (fuel : Nat)
    (record : BeforeAfter RecordLocation)
    (recordExpression : BeforeAfter Expression) (st : CheckerState) :
    CheckerState :=
  match fuel with
  | 0 => st
  | fuel + 1 =>
    -- Avoid infinite recursion when checking recursive records.
    let recordKeys := record.before.record.key ++ ":" ++ record.after.record.key
    if recordKeys ∈ st.seenRecordKeys then st
    else
      let st := { st with seenRecordKeys := st.seenRecordKeys ++ [recordKeys] }
      let recordType : BeforeAfter RecordType :=
        ⟨record.before.record.recordType, record.after.record.recordType⟩
      if recordType.after ≠ recordType.before then
        pushBreakingChange st
          (.recordKindChange record recordExpression recordType)
      else
        let isStruct := recordType.before = .struct
        let numSlotsInclRemovedNumbers :=
          record.before.record.numSlotsInclRemovedNumbers
        if record.after.record.numSlotsInclRemovedNumbers <
            numSlotsInclRemovedNumbers then
          pushBreakingChange st
            (.missingSlots record recordExpression
              record.after.record.numSlotsInclRemovedNumbers
              numSlotsInclRemovedNumbers)
        else
          let numberToFieldAfter := indexFields record.after.record
          -- Check that no removed number was reintroduced.
          let st := record.before.record.removedNumbers.foldl
            (fun st removedNumber =>
              match numberToFieldAfter.lookup removedNumber with
              | some fieldAfter =>
                pushBreakingChange st
                  (.removedNumberReintroduced record recordExpression
                    removedNumber fieldAfter.name)
              | none => st) st
          let removedNumbersAfter := record.after.record.removedNumbers
          checkRecordFields ms fuel record recordExpression isStruct
            numberToFieldAfter removedNumbersAfter
            record.before.record.fields st
termination_by (fuel, 0)

/-- The `for (const fieldBefore of record.before.record.fields)` loop of
`checkRecord`. -/
def checkRecordFields (ms : CheckerMaps) (fuel : Nat)
    (record : BeforeAfter RecordLocation)
    (recordExpression : BeforeAfter Expression) (isStruct : Bool)
    (numberToFieldAfter : List (Int × Field)) (removedNumbersAfter : List Int)
    (fields : List Field) (st : CheckerState) : CheckerState :=
  match fields with
  | [] => st
  | fieldBefore :: rest =>
    let st :=
      match numberToFieldAfter.lookup fieldBefore.number with
      | none =>
        if removedNumbersAfter.contains fieldBefore.number then st
        else
          pushBreakingChange st
            (.missingVariant record recordExpression fieldBefore.name
              fieldBefore.number)
      | some fieldAfter =>
        match fieldBefore.type, fieldAfter.type with
        | some typeBefore, some typeAfter =>
          checkType ms fuel ⟨typeBefore, typeAfter⟩
            (if isStruct then
              ⟨.property recordExpression.before fieldBefore.name,
                .property recordExpression.after fieldAfter.name⟩
            else
              ⟨.asVariant recordExpression.before fieldBefore.name,
                .asVariant recordExpression.after fieldAfter.name⟩) st
        | some _, none =>
          pushBreakingChange st
            (.variantKindChange record recordExpression
              ⟨fieldBefore.name, fieldAfter.name⟩ fieldBefore.number)
        | none, some _ =>
          pushBreakingChange st
            (.variantKindChange record recordExpression
              ⟨fieldBefore.name, fieldAfter.name⟩ fieldBefore.number)
        | none, none => st
    checkRecordFields ms fuel record recordExpression isStruct
      numberToFieldAfter removedNumbersAfter rest st
termination_by (fuel, fields.length + 1)
end

end Soia

namespace Soia

/-- A record-level declaration as fed to `RecordBuilder.addDeclaration`:
a field, a nested record, or a `removed` marker (`numbers` is empty for a
bare `removed;`). -/
inductive RecordLevelDecl where
  | fieldDecl (f : Field)
  | recordDecl (r : RecordData)
  | removedDecl (removedToken : Token) (numbers : List Int)

/-- The mutable state of `RecordBuilder`, plus its accumulated errors.
`numbers` models the JS `Set<number>` (insertion order, no duplicates). -/
structure RecordBuilder where
  recordName : Token
  recordType : RecordType
  stableId : Option Int
  nameToDeclaration : List (String × RecDecl)
  numbers : List Int
  numbering : Numbering
  removedNumbers : List Int
  errors : List SoiaError

/-- A fresh builder. -/
def RecordBuilder.init (recordName : Token) (recordType : RecordType)
    (stableId : Option Int) : RecordBuilder :=
  ⟨recordName, recordType, stableId, [], [], .empty, [], []⟩

/-- The `for (const number of numbers)` registration loop of
`addDeclaration`; the boolean is true when the loop returned early
(duplicate number, or reserved enum number 0). -/
def registerNumbers (b : RecordBuilder) (errorToken : Token) :
    List Int → RecordBuilder × Bool
  | [] => (b, false)
  | number :: rest =>
    if b.numbers.contains number then
      ({ b with
          errors := b.errors ++
            [{ token := errorToken
               message := some ("Duplicate field number " ++ toString number) }]
          numbering := .broken }, true)
    else if number = 0 ∧ b.recordType = .enum then
      ({ b with
          errors := b.errors ++
            [{ token := errorToken
               message := some "Number 0 is reserved for UNKNOWN field" }] },
        true)
    else registerNumbers { b with numbers := b.numbers ++ [number] } errorToken rest

/-- `RecordBuilder.addDeclaration`. -/
def addDeclaration (b : RecordBuilder) (declaration : RecordLevelDecl) :
    RecordBuilder :=
  if b.numbering = .broken then b
  else
    -- Unless explicitly specified, the number assigned to the first field of
    -- an enum is 1.
    let nextImplicitNumber : Int :=
      (b.numbers.length : Int) + (if b.recordType = .enum then 1 else 0)
    let info :
        Option (Token × RecDecl) × Token × List Int × Numbering × Bool :=
      match declaration with
      | .fieldDecl f =>
        let f' := if f.number < 0 then { f with number := nextImplicitNumber }
                  else f
        (some (f.name, .fieldDecl f'), f.name, [f'.number],
          if f.number < 0 then .implicit else .explicit, false)
      | .recordDecl r =>
        (some (r.name, .recordDecl r), r.name, [], b.numbering, false)
      | .removedDecl removedToken numbers =>
        if numbers.isEmpty then
          (none, removedToken, [nextImplicitNumber], .implicit, true)
        else (none, removedToken, numbers, .explicit, true)
    let nameToken := info.1
    let errorToken := info.2.1
    let numbers := info.2.2.1
    let newNumbering := info.2.2.2.1
    let isRemoved := info.2.2.2.2
    -- Make sure we are not mixing implicit and explicit numbering.
    let b :=
      if b.numbering = .empty then { b with numbering := newNumbering }
      else if b.numbering ≠ newNumbering then
        { b with
            numbering := .broken
            errors := b.errors ++
              [{ token := errorToken
                 message :=
                   some "Cannot mix implicit and explicit numbering" }] }
      else b
    -- Register the field numbers (and removed numbers) unless the name
    -- registration returned early on a duplicate identifier.
    let proceed : RecordBuilder → RecordBuilder := fun b =>
      let (b, aborted) := registerNumbers b errorToken numbers
      if aborted then b
      else if isRemoved then
        { b with removedNumbers := b.removedNumbers ++ numbers }
      else b
    match nameToken with
    | some (nt, storedDecl) =>
      if (b.nameToDeclaration.lookup nt.text).isSome then
        { b with
            errors := b.errors ++
              [{ token := nt
                 message :=
                   some ("Duplicate identifier " ++ sq ++ nt.text ++ sq) }] }
      else
        proceed
          { b with
              nameToDeclaration := b.nameToDeclaration ++ [(nt.text, storedDecl)] }
    | none => proceed b

/-- Code-unit-wise `≤` on character lists (the order JavaScript uses to
compare strings). -/
def charListLe : List Char → List Char → Bool
  | [], _ => true
  | _ :: _, [] => false
  | a :: as, b :: bs =>
    if a.toNat < b.toNat then true
    else if b.toNat < a.toNat then false
    else charListLe as bs

/-- JavaScript string `<=`. -/
def jsStrLe (a b : String) : Bool := charListLe a.data b.data

/-- Stable insertion into a list sorted by JavaScript's default comparator
(lexicographic comparison of the decimal string forms). -/
def jsSortInsert (x : Int) : List Int → List Int
  | [] => [x]
  | y :: rest =>
    if jsStrLe (toString y) (toString x) then y :: jsSortInsert x rest
    else x :: y :: rest

/-- `Array.prototype.sort()` with no comparator: elements are compared as
strings (UTF-16 lexicographic order of their decimal representations). -/
def jsSortDefault (l : List Int) : List Int :=
  l.foldl (fun acc x => jsSortInsert x acc) []

/-- `RecordBuilder.build`, returning the record together with all errors the
builder accumulated. -/
def RecordBuilder.build (b : RecordBuilder) : RecordData × List SoiaError :=
  let isStruct := b.recordType = .struct
  -- If the record is a struct, make sure that all field numbers are
  -- consecutive starting from 0.
  let errors :=
    if isStruct then
      match (List.range b.numbers.length).find?
          (fun i => ¬ b.numbers.contains (i : Int)) with
      | some i =>
        b.errors ++
          [{ token := b.recordName
             message := some ("Missing field number " ++ toString i) }]
      | none => b.errors
    else b.errors
  let fields := b.nameToDeclaration.filterMap fun d =>
    match d.2 with
    | .fieldDecl f => some f
    | .recordDecl _ => none
  let key := b.recordName.modulePath ++ ":" ++ toString b.recordName.position
  let numSlots : Int :=
    if isStruct then
      match fields.map (fun f => f.number) with
      | [] => 0
      | n :: ns => ns.foldl max n + 1
    else 0
  let numSlotsInclRemovedNumbers : Int :=
    if isStruct then (b.numbers.length : Int) else 0
  (.mk key b.recordName b.recordType b.nameToDeclaration b.numbering
      (jsSortDefault b.removedNumbers) b.stableId numSlots
      numSlotsInclRemovedNumbers,
    errors)

/-- `parseRecord`'s builder loop followed by `build()` (inline-record
hoisting aside, which delivers nested records as separate declarations). -/
def buildRecord (recordName : Token) (recordType : RecordType)
    (stableId : Option Int) (declarations : List RecordLevelDecl) :
    RecordData × List SoiaError :=
  (declarations.foldl addDeclaration
    (RecordBuilder.init recordName recordType stableId)).build

/-- JavaScript `| 0`: truncation to a signed 32-bit integer. -/
def toInt32 (n : Int) : Int := (n + 2 ^ 31) % 2 ^ 32 - 2 ^ 31

/-- JavaScript `>>> 0`: reinterpretation as an unsigned 32-bit integer. -/
def toUint32 (n : Int) : Int := n % 2 ^ 32

/-- `simpleHash`: `hash = (hash << 5) - hash + charCode; hash |= 0;` over the
UTF-16 code units of the input, then `hash >>> 0`. (`Char.toNat` equals the
UTF-16 code unit for all code points the tokenizer can deliver in an
identifier or module path.) -/
def simpleHash (input : String) : Int :=
  toUint32 (input.data.foldl
    (fun hash c => toInt32 (toInt32 (hash * 32) - hash + (c.toNat : Int))) 0)

/-- The method number assigned by `parseMethod` when the method declaration
carries no explicit number. -/
def implicitMethodNumber (modulePath methodName : String) : Int :=
  simpleHash (modulePath ++ ":" ++ methodName)

end Soia

namespace Soia

/-- The traversal mode of `collectTypeDeps`: `"soft" | "hard"`. -/
inductive DepsMode where
  | soft
  | hard
deriving DecidableEq, Repr

/-- `ModuleSet.collectTypeDeps`: accumulates (in `out`, an insertion-ordered
set of record keys) the records the input type depends on. In `hard` mode,
array and optional indirections are not followed and enum bodies are not
descended into. `fuel` bounds the descent (the source's recursion is bounded
by the growing `out` set); each recursion step consumes one unit. -/
def collectTypeDeps (recordMap : List (String × RecordLocation)) :
    Nat → ResolvedType → DepsMode → List String → List String
  | 0, _, _, out => out
  | fuel + 1, input, mode, out =>
    match input with
    | .record key _ _ =>
      if out.contains key then out
      else
        let out := out ++ [key]
        -- The source reads `this.recordMap.get(key)!`, which cannot fail on
        -- resolved input; a missing key is mapped to "no further deps".
        match recordMap.lookup key with
        | none => out
        | some loc =>
          if mode = .hard ∧ loc.record.recordType = .enum then out
          else
            -- Recursively add deps of all fields of the record.
            loc.record.fields.foldl (fun out field =>
              match field.type with
              | none => out
              | some t => collectTypeDeps recordMap fuel t mode out) out
    | .array item _ =>
      if mode = .hard then out
      else collectTypeDeps recordMap fuel item mode out
    | .optional other =>
      if mode = .hard then out
      else collectTypeDeps recordMap fuel other mode out
    | .primitive _ => out

/-- `ModuleSet.storeFieldRecursivity`, per field: a struct field is checked
for hard recursion first, then soft; an enum field is checked only for soft
recursion. Returns the field's `isRecursive` decoration. -/
def fieldIsRecursive (recordMap : List (String × RecordLocation)) (fuel : Nat)
    (record : RecordData) (field : Field) : Recursivity :=
  match field.type with
  | none => field.isRecursive
  | some t =>
    let modes : List DepsMode :=
      if record.recordType = .struct then [.hard, .soft] else [.soft]
    match modes.find? (fun mode =>
        (collectTypeDeps recordMap fuel t mode []).contains record.key) with
    | some .hard => .hard
    | some .soft => .soft
    | none => field.isRecursive

/-- Applies a function to every field declaration of a record (in-place
field mutation in the source). -/
def RecordData.mapFields (r : RecordData) (f : Field → Field) : RecordData :=
  match r with
  | .mk key name rt decls nb rn n s si =>
    .mk key name rt
      (decls.map fun d =>
        match d.2 with
        | .fieldDecl fd => (d.1, RecDecl.fieldDecl (f fd))
        | .recordDecl rd => (d.1, RecDecl.recordDecl rd)) nb rn n s si

/-- `ModuleSet.storeFieldRecursivity` over a whole record. -/
def storeFieldRecursivity (recordMap : List (String × RecordLocation))
    (fuel : Nat) (record : RecordData) : RecordData :=
  record.mapFields fun field =>
    { field with isRecursive := fieldIsRecursive recordMap fuel record field }

/-- The string form of a record type tag. -/
def recordTypeName : RecordType → String
  | .struct => "struct"
  | .enum => "enum"

/-- `ModuleSet.referencesImplicitlyNumberedRecord`: walks through array items
and optional wrappers down to a primitive or a record reference; a record
reference is invalid iff the referenced record uses implicit numbering. The
source returns the `ResolvedRecordRef` itself; the embedding returns the two
components the caller reads (`recordType`, `refToken`). -/
def referencesImplicitlyNumberedRecord
    (recordMap : List (String × RecordLocation)) :
    ResolvedType → Option (RecordType × Token)
  | .array item _ => referencesImplicitlyNumberedRecord recordMap item
  | .optional other => referencesImplicitlyNumberedRecord recordMap other
  | .primitive _ => none
  | .record key recordType refToken =>
    -- `this.recordMap.get(input.key)!` cannot fail on resolved input.
    match recordMap.lookup key with
    | none => none
    | some loc =>
      if loc.record.numbering = .implicit then some (recordType, refToken)
      else none

/-- `ModuleSet.verifyNumberingConstraint`: the errors this pass contributes
for one record. -/
def verifyNumberingConstraint (recordMap : List (String × RecordLocation))
    (record : RecordData) : List SoiaError :=
  if record.numbering ≠ .explicit then []
  else
    record.fields.filterMap fun field =>
      match field.type with
      | none => none
      | some t =>
        match referencesImplicitlyNumberedRecord recordMap t with
        | none => none
        | some (rt, refToken) =>
          some
            { token := refToken
              message :=
                some ("Field type references a " ++ recordTypeName rt ++
                  " with implicit numbering, but field belongs to a " ++
                  recordTypeName record.recordType ++
                  " with explicit numbering") }

end Soia

namespace Soia

/-- The canonical dense JSON encoding of constant values. JSON numbers that
the verified code produces are integers (field numbers, int32 values,
timestamp milliseconds); see `literalValueToDenseJson` for how float-typed
literals are approximated. -/
inductive DenseJson where
  | jsonNull
  | jsonBool (b : Bool)
  | jsonNum (n : Int)
  | jsonStr (s : String)
  | jsonArr (items : List DenseJson)
deriving Repr

/-- True exactly on `jsonNull`. -/
def DenseJson.isNull : DenseJson → Bool
  | .jsonNull => true
  | _ => false

/-- True exactly on `jsonStr s`. -/
def DenseJson.isStr (s : String) : DenseJson → Bool
  | .jsonStr t => t = s
  | _ => false

/-- A parsed literal value tree (`literal | object | array`). Object entries
are kept in insertion order, keyed by field name, each with its name token. -/
inductive Value where
  | literal (token : Token)
  | object (token : Token) (entries : List (String × Token × Value))
      (isPartial : Bool)
  | arrayValue (token : Token) (items : List Value)

/-- `value.token`. -/
def Value.token : Value → Token
  | .literal t => t
  | .object t _ _ => t
  | .arrayValue t _ => t

/-- Splits a character list on a separator character (the semantics of
`String.splitOn` with a one-character separator). -/
def splitOnChar (sep : Char) : List Char → List (List Char)
  | [] => [[]]
  | c :: rest =>
    let r := splitOnChar sep rest
    if c = sep then [] :: r
    else
      match r with
      | h :: t => (c :: h) :: t
      | [] => [[c]]

/-- `String.splitOn` with a one-character separator. -/
def strSplitOnChar (sep : Char) (s : String) : List String :=
  (splitOnChar sep s.data).map fun l => String.mk l

/-- `String.startsWith`. -/
def strStartsWith (s p : String) : Bool := p.data.isPrefixOf s.data

/-- `String.intercalate "/"`. -/
def joinSlash (parts : List String) : String :=
  match parts with
  | [] => ""
  | p :: rest =>
    String.mk (p.data ++ rest.foldl (fun acc q => acc ++ '/' :: q.data) [])

/-- Modelled from the spec: `literals.ts#isStringLiteral` is not under
`src/`. A string literal starts with a single or double quote. -/
def isStringLiteral (text : String) : Bool :=
  strStartsWith text "\"" || strStartsWith text sq

/-- Backslash-escape processing for the body of a string literal. -/
def unescapeChars : List Char → List Char
  | [] => []
  | '\\' :: c :: rest =>
    (if c = 'n' then '\n' else if c = 't' then '\t' else c) :: unescapeChars rest
  | c :: rest => c :: unescapeChars rest

/-- Modelled from the spec: `literals.ts#unquoteAndUnescape` is not under
`src/`. Strips the surrounding quotes and processes backslash escapes (the
line-continuation escapes of the full implementation are not modelled). -/
def unquoteAndUnescape (text : String) : String :=
  ⟨unescapeChars ((text.data.drop 1).dropLast)⟩

/-- The numeric value of a nonempty decimal digit string. -/
def digitsToNat (l : List Char) : Nat :=
  l.foldl (fun acc c => acc * 10 + (c.toNat - 48)) 0

/-- Parses an optionally-negated decimal integer literal (leading zeros
allowed, as in the source). -/
def parseIntLit (text : String) : Option Int :=
  match text.data with
  | '-' :: rest =>
    if rest ≠ [] ∧ rest.all Char.isDigit then some (-(digitsToNat rest : Int))
    else none
  | l =>
    if l ≠ [] ∧ l.all Char.isDigit then some (digitsToNat l : Int) else none

/-- True when the text is a decimal number literal, with an optional
fractional part. -/
def isNumberLit (text : String) : Bool :=
  match strSplitOnChar '.' text with
  | [w] => (parseIntLit w).isSome
  | [w, f] => (parseIntLit w).isSome ∧ f.data ≠ [] ∧ f.data.all Char.isDigit
  | _ => false

/-- True when every character is a hexadecimal digit. -/
def isHexString (s : String) : Bool :=
  s.data.all fun c => c.isDigit ∨ ("abcdefABCDEF".data.contains c)

/-- Days from the civil epoch 1970-01-01 to the given proleptic Gregorian
date (Hinnant's `days_from_civil`). -/
def daysFromCivil (y m d : Int) : Int :=
  let y := if m ≤ 2 then y - 1 else y
  let era := (if 0 ≤ y then y else y - 399) / 400
  let yoe := y - era * 400
  let mp := (m + 9) % 12
  let doy := (153 * mp + 2) / 5 + d - 1
  let doe := yoe * 365 + yoe / 4 - yoe / 100 + doy
  era * 146097 + doe - 719468

/-- Modelled from the spec: `literals.ts` timestamp parsing is not under
`src/`. Parses the `YYYY-MM-DD` date part of an unquoted timestamp literal
into epoch milliseconds; the time-of-day and zone-offset parts accepted by
the full implementation are not modelled (they contribute zero for the
date-only literals exercised here). -/
def timestampMillisModel (s : String) : Int :=
  match strSplitOnChar '-' s with
  | y :: m :: d :: _ =>
    let dd := (d.data.takeWhile Char.isDigit)
    daysFromCivil (digitsToNat y.data) (digitsToNat m.data)
      (digitsToNat dd) * 86400000
  | _ => 0

/-- Modelled from the spec: `literals.ts#valueHasPrimitiveType` is not under
`src/`. Exact numeric range and lexical rules per primitive, following the
spec and `literals.test.ts`. -/
def valueHasPrimitiveType (text : String) (primitive : Primitive) : Bool :=
  match primitive with
  | .bool => text = "true" ∨ text = "false"
  | .int32 =>
    match parseIntLit text with
    | some n => -(2 ^ 31) ≤ n ∧ n < 2 ^ 31
    | none => false
  | .int64 =>
    match parseIntLit text with
    | some n => -(2 ^ 63) ≤ n ∧ n < 2 ^ 63
    | none => false
  | .uint64 =>
    match parseIntLit text with
    | some n => 0 ≤ n ∧ n < 2 ^ 64
    | none => false
  | .float32 => isNumberLit text
  | .float64 => isNumberLit text
  | .timestamp =>
    isStringLiteral text ∧
      (unquoteAndUnescape text).length ≥ 11 ∧
      (strSplitOnChar '-' (unquoteAndUnescape text)).length ≥ 3
  | .string => isStringLiteral text
  | .bytes =>
    isStringLiteral text ∧ isHexString (unquoteAndUnescape text) ∧
      (unquoteAndUnescape text).length % 2 = 0

/-- The uppercase form of a hex string. -/
def hexUpper (s : String) : String := String.mk (s.data.map Char.toUpper)

/-- Modelled from the spec: `literals.ts#literalValueToDenseJson` is not
under `src/`. Booleans and int32 values become JSON booleans/numbers; int64
and uint64 values become canonical decimal strings (preserving precision
across the JSON numeric boundary); bytes become uppercase hex; timestamps
become epoch milliseconds; strings are unquoted. Float-typed literals are
JSON numbers in the source; the model maps integral literals to `jsonNum`
and keeps other decimal forms as their literal text, which coincides with
the source on default-value (zero) detection. -/
def literalValueToDenseJson (text : String) (primitive : Primitive) :
    DenseJson :=
  match primitive with
  | .bool => .jsonBool (text = "true")
  | .int32 => .jsonNum ((parseIntLit text).getD 0)
  | .int64 => .jsonStr (toString ((parseIntLit text).getD 0))
  | .uint64 => .jsonStr (toString ((parseIntLit text).getD 0))
  | .float32 =>
    match parseIntLit text with
    | some n => .jsonNum n
    | none => .jsonStr text
  | .float64 =>
    match parseIntLit text with
    | some n => .jsonNum n
    | none => .jsonStr text
  | .timestamp => .jsonNum (timestampMillisModel (unquoteAndUnescape text))
  | .string => .jsonStr (unquoteAndUnescape text)
  | .bytes => .jsonStr (hexUpper (unquoteAndUnescape text))

/-- Modelled from the spec: `literals.ts#literalValueToIdentity` is not under
`src/`. The canonical identity string of a literal for duplicate-key
detection. -/
def literalValueToIdentity (text : String) (primitive : Primitive) : String :=
  match primitive with
  | .bool => text
  | .int32 => toString ((parseIntLit text).getD 0)
  | .int64 => toString ((parseIntLit text).getD 0)
  | .uint64 => toString ((parseIntLit text).getD 0)
  | .float32 =>
    match parseIntLit text with
    | some n => toString n
    | none => text
  | .float64 =>
    match parseIntLit text with
    | some n => toString n
    | none => text
  | .timestamp => toString (timestampMillisModel (unquoteAndUnescape text))
  | .string => unquoteAndUnescape text
  | .bytes => hexUpper (unquoteAndUnescape text)

/-- The name of a primitive type, as used in `expected:` diagnostics. -/
def primitiveName : Primitive → String
  | .bool => "bool"
  | .int32 => "int32"
  | .int64 => "int64"
  | .uint64 => "uint64"
  | .float32 => "float32"
  | .float64 => "float64"
  | .timestamp => "timestamp"
  | .string => "string"
  | .bytes => "bytes"

/-- JavaScript falsiness of a dense JSON value (`!valueJson`). -/
def jsFalsy : DenseJson → Bool
  | .jsonNull => true
  | .jsonBool b => ¬ b
  | .jsonNum n => n = 0
  | .jsonStr s => s = ""
  | .jsonArr _ => false

/-- The `hasDefaultValue` predicate of `structValueToDenseJson`: an optional
slot is default iff `null`; otherwise a slot is default iff its JSON value
is falsy, or an empty array, or the string `"0"` in an int64/uint64 slot. -/
def hasDefaultValueB (type : ResolvedType) (vj : DenseJson) : Bool :=
  match type with
  | .optional _ => vj.isNull
  | _ =>
    jsFalsy vj ||
    (match vj with
     | .jsonArr l => l.isEmpty
     | _ => false) ||
    (match type with
     | .primitive p =>
       (p = Primitive.int64 ∨ p = Primitive.uint64 : Bool) && vj.isStr "0"
     | _ => false)

/-- JavaScript sparse-array assignment `json[i] = v`: pads the array with
holes (`none`) up to index `i` if needed, then sets index `i`. -/
def setSparse (l : List (Option DenseJson)) (i : Nat) (v : DenseJson) :
    List (Option DenseJson) :=
  let l := if l.length < i + 1 then l ++ List.replicate (i + 1 - l.length) none
           else l
  l.set i (some v)

/-- The key-extraction closure `tryExtractKeyFromItem` of
`validateKeyedItems`. -/
def tryExtractKey (pathNames : List Token) (value : Value) :
    Option Value × List SoiaError :=
  match pathNames with
  | [] => (some value, [])
  | fieldName :: rest =>
    match value with
    | .literal t =>
      -- An enum constant.
      if fieldName.text = "kind" then (some (.literal t), []) else (none, [])
    | .arrayValue _ _ => (none, [])
    | .object tok entries _ =>
      match entries.lookup fieldName.text with
      | none =>
        (none,
          [{ token := tok, message := some ("Missing entry: " ++ fieldName.text) }])
      | some (_, v) => tryExtractKey rest v

/-- The identity-collection loop of `validateKeyedItems`; `none` means the
loop returned early (a key could not be extracted). -/
def collectKeyIdentities (keyType : KeyType) (pathNames : List Token)
    (items : List Value) (m : List (String × List Value)) :
    Option (List (String × List Value)) × List SoiaError :=
  match items with
  | [] => (some m, [])
  | item :: rest =>
    match tryExtractKey pathNames item with
    | (none, errs) => (none, errs)
    | (some key, errs) =>
      match key with
      | .literal keyToken =>
        let identity : Option String :=
          match keyType with
          | .primitive primitive =>
            if valueHasPrimitiveType keyToken.text primitive then
              some (literalValueToIdentity keyToken.text primitive)
            else none
          | .enumRef _ =>
            if isStringLiteral keyToken.text then
              some (unquoteAndUnescape keyToken.text)
            else none
        match identity with
        | none => collectKeyIdentities keyType pathNames rest m
        | some id0 =>
          let m :=
            match m.lookup id0 with
            | some keys =>
              (m.filter fun e => e.1 ≠ id0).append [(id0, keys ++ [key])]
            | none => m ++ [(id0, [key])]
          let (res, errs') := collectKeyIdentities keyType pathNames rest m
          (res, errs ++ errs')
      | _ => (none, errs)

/-- `validateKeyedItems`: every item of a keyed array must have its key set,
and no two items may share the same key identity. -/
def validateKeyedItems (items : List Value) (fieldPath : FieldPath) :
    List SoiaError :=
  match collectKeyIdentities fieldPath.keyType fieldPath.path items [] with
  | (none, errs) => errs
  | (some m, errs) =>
    errs ++ (m.foldl (fun acc e =>
      if e.2.length ≤ 1 then acc
      else acc ++ e.2.map fun key =>
        { token := key.token, message := some "Duplicate key" }) [])

end Soia

namespace Soia

/-- The item loop of the array case of `valueToDenseJson`, parameterized by
the recursive lowering function; the boolean is the loop's `allGood` flag. -/
def arrayItemsToDenseJson
    (recurse : Value → ResolvedType → Option DenseJson × List SoiaError)
    (items : List Value) (itemType : ResolvedType) :
    List DenseJson × Bool × List SoiaError :=
  match items with
  | [] => ([], true, [])
  | item :: rest =>
    let (itemJson, errs) := recurse item itemType
    let (restJsons, restGood, restErrs) :=
      arrayItemsToDenseJson recurse rest itemType
    match itemJson with
    | some j => (j :: restJsons, restGood, errs ++ restErrs)
    | none => (restJsons, false, errs ++ restErrs)

/-- The `for (const field of expectedStruct.fields)` loop of
`structValueToDenseJson`, parameterized by the recursive lowering function:
accumulates the sparse JSON array, the trimmed length `arrayLen`, the
`allGood` flag and the diagnostics. -/
def structFieldsToDenseJson
    (recurse : Value → ResolvedType → Option DenseJson × List SoiaError)
    (token : Token) (entries : List (String × Token × Value))
    (fields : List Field)
    (acc : List (Option DenseJson) × Nat × Bool × List SoiaError) :
    List (Option DenseJson) × Nat × Bool × List SoiaError :=
  match fields with
  | [] => acc
  | field :: rest =>
    let (json, arrayLen, allGood, errors) := acc
    let acc' :=
      match field.type with
      | none => (json, arrayLen, false, errors)
      | some type =>
        match entries.lookup field.name.text with
        | none =>
          (json, arrayLen, false,
            errors ++
              [{ token := token
                 message := some ("Missing entry: " ++ field.name.text) }])
        | some (_, entryValue) =>
          let (valueJson, verrs) := recurse entryValue type
          match valueJson with
          | none => (json, arrayLen, false, errors ++ verrs)
          | some vj =>
            let json := setSparse json field.number.toNat vj
            let hasDefaultValue : Bool := hasDefaultValueB type vj
            if hasDefaultValue then (json, arrayLen, allGood, errors ++ verrs)
            else
              (json, max arrayLen (field.number.toNat + 1), allGood,
                errors ++ verrs)
    structFieldsToDenseJson recurse token entries rest acc'

/-- `ModuleSet.structValueToDenseJson`, parameterized by the recursive
lowering function. -/
def structValueToDenseJson
    (recurse : Value → ResolvedType → Option DenseJson × List SoiaError)
    (value : Value) (expectedStruct : RecordData) :
    Option DenseJson × List SoiaError :=
  match value with
  | .object token entries _ =>
    -- First loop: flag entries that name no field of the struct.
    let unknownEntryErrors := entries.filterMap fun e =>
      match expectedStruct.nameToDeclaration.lookup e.1 with
      | some (.fieldDecl _) => none
      | _ =>
        some { token := e.2.1
               message :=
                 some ("Field not found in struct " ++
                   expectedStruct.name.text) }
    -- Second loop: lower each declared field.
    let (json, arrayLen, allGood, errors) :=
      structFieldsToDenseJson recurse token entries
        expectedStruct.fields ([], 0, unknownEntryErrors.isEmpty, [])
    if ¬ allGood then (none, unknownEntryErrors ++ errors)
    else
      -- Fill missing slots in the JSON array with zeros, then trim the
      -- trailing default-valued slots.
      (some (.jsonArr
          ((json.map fun o => o.getD (.jsonStr "0")).take arrayLen)),
        unknownEntryErrors ++ errors)
  | v => (none, [{ token := v.token, expected := some "object" }])

/-- `ModuleSet.enumValueToDenseJson`, parameterized by the recursive
lowering function. -/
def enumValueToDenseJson
    (recurse : Value → ResolvedType → Option DenseJson × List SoiaError)
    (value : Value) (expectedEnum : RecordData) :
    Option DenseJson × List SoiaError :=
  match value with
  | .literal token =>
    if isStringLiteral token.text then
      -- The value is a string: it must name a constant variant.
      let fieldName := unquoteAndUnescape token.text
      match expectedEnum.nameToDeclaration.lookup fieldName with
      | some (.fieldDecl field) =>
        if field.type.isSome then
          (none, [{ token := token, message := some "Refers to a value field" }])
        else (some (.jsonNum field.number), [])
      | _ =>
        (none,
          [{ token := token
             message :=
               some ("Field not found in enum " ++ expectedEnum.name.text) }])
    else (none, [{ token := token, expected := some "string or object" }])
  | .object token entries _ =>
    match entries.lookup "kind" with
    | none => (none, [{ token := token, message := some "Missing entry: kind" }])
    | some (_, kindValue) =>
      match kindValue with
      | .literal kindValueToken =>
        if ¬ isStringLiteral kindValueToken.text then
          (none, [{ token := kindValueToken, expected := some "string" }])
        else
          let fieldName := unquoteAndUnescape kindValueToken.text
          match expectedEnum.nameToDeclaration.lookup fieldName with
          | some (.fieldDecl field) =>
            match field.type with
            | none =>
              (none,
                [{ token := kindValueToken
                   message := some "Refers to a constant field" }])
            | some fieldType =>
              match entries.lookup "value" with
              | none =>
                (none, [{ token := token, message := some "Missing entry: value" }])
              | some (_, enumValue) =>
                let (valueJson, verrs) := recurse enumValue fieldType
                match valueJson with
                | none => (none, verrs)
                | some vj =>
                  match entries.filter
                      (fun e => e.1 ≠ "kind" ∧ e.1 ≠ "value") with
                  | extraEntry :: _ =>
                    (none,
                      verrs ++
                        [{ token := extraEntry.2.1
                           message := some "Extraneous entry" }])
                  | [] =>
                    (some (.jsonArr [.jsonNum field.number, vj]), verrs)
          | _ =>
            (none,
              [{ token := kindValueToken
                 message :=
                   some ("Field not found in enum " ++
                     expectedEnum.name.text) }])
      | v => (none, [{ token := v.token, expected := some "string" }])
  | .arrayValue token _ =>
    -- Neither a string nor an object: cannot be of enum type.
    (none, [{ token := token, expected := some "string or object" }])

/-- `ModuleSet.valueToDenseJson`: type-checks and lowers a literal value tree
against its resolved type into dense JSON, accumulating diagnostics. `fuel`
bounds the descent (the source's recursion structurally decreases on the
value tree); one unit is consumed per lowering step. -/
def valueToDenseJson (recordMap : List (String × RecordLocation)) :
    Nat → Value → ResolvedType → Option DenseJson × List SoiaError
  | 0, _, _ => (none, [])
  | fuel + 1, value, expectedType =>
    match expectedType with
    | .optional other =>
      match value with
      | .literal token =>
        if token.text = "null" then (some .jsonNull, [])
        else valueToDenseJson recordMap fuel (.literal token) other
      | v => valueToDenseJson recordMap fuel v other
    | .array itemType key =>
      match value with
      | .arrayValue _ items =>
        let (jsons, allGood, errors) :=
          arrayItemsToDenseJson
            (fun v t => valueToDenseJson recordMap fuel v t) items itemType
        if ¬ allGood then (none, errors)
        else
          let keyErrors :=
            match key with
            | some k => validateKeyedItems items k
            | none => []
          (some (.jsonArr jsons), errors ++ keyErrors)
      | v => (none, [{ token := v.token, expected := some "array" }])
    | .record rkey _ _ =>
      match recordMap.lookup rkey with
      | none => (none, [])  -- an error was already registered
      | some record =>
        if record.record.recordType = .struct then
          structValueToDenseJson
            (fun v t => valueToDenseJson recordMap fuel v t) value
            record.record
        else
          enumValueToDenseJson
            (fun v t => valueToDenseJson recordMap fuel v t) value
            record.record
    | .primitive primitive =>
      match value with
      | .literal token =>
        if valueHasPrimitiveType token.text primitive then
          (some (literalValueToDenseJson token.text primitive), [])
        else (none, [{ token := token, expected := some (primitiveName primitive) }])
      | v => (none, [{ token := v.token, expected := some (primitiveName primitive) }])

end Soia

namespace Soia

/-- A constant declaration (`const NAME: Type = value;`). -/
structure Constant where
  name : Token
  unresolvedType : UnresolvedType
  type : Option ResolvedType := none
  value : Value
  valueAsDenseJson : Option DenseJson := none

/-- A module-level declaration. Import declarations carry the
`resolvedModulePath` decoration written during import processing. -/
inductive ModuleDecl where
  | importDecl (importedNames : List Token) (modulePath : Token)
      (resolvedModulePath : Option String)
  | importAliasDecl (name : Token) (modulePath : Token)
      (resolvedModulePath : Option String)
  | recordDecl (r : RecordData)
  | methodDecl (m : Method)
  | constantDecl (c : Constant)

/-- An entry of `pathToImportedNames`: either a set of individually imported
names, or a whole-module import under an alias. -/
inductive ImportedNames where
  | someNames (names : List String)
  | allNames (importAlias : String)

/-- A parsed (and later decorated) module. `methods` and `constants` are the
corresponding projections of `declarations`. -/
structure Module where
  path : String
  declarations : List ModuleDecl
  nameToDeclaration : List (String × ModuleDecl)
  records : List RecordLocation
  pathToImportedNames : List (String × ImportedNames)

/-- `Result<T>` with a nullable payload. -/
structure SResult (α : Type) where
  result : Option α
  errors : List SoiaError

/-- The mutable state of a `ModuleSet`: the memoization map, the cross-module
record map, the list of fully resolved modules, and the flattened errors. -/
structure ModuleSetState where
  modules : List (String × SResult Module)
  recordMap : List (String × RecordLocation)
  resolvedModules : List Module
  errors : List SoiaError

/-- The empty `ModuleSet` state. -/
def ModuleSetState.init : ModuleSetState := ⟨[], [], [], []⟩

/-- `Map.set` on an association list: replaces in place when the key exists,
appends otherwise (JS `Map` insertion-order semantics). -/
def mapSet {α : Type} (m : List (String × α)) (k : String) (v : α) :
    List (String × α) :=
  if (m.lookup k).isSome then
    m.map fun e => if e.1 = k then (k, v) else e
  else m ++ [(k, v)]

/-- Rebuilds a module's `nameToDeclaration` from its (decorated) declaration
list, exactly as `parseModule` builds it: one entry per declared name, first
declaration wins. In the source the map and the list share the declaration
objects, so decorating a declaration updates both; the embedding recomputes
the map after decorating. -/
def buildNameToDeclaration (declarations : List ModuleDecl) :
    List (String × ModuleDecl) :=
  declarations.foldl (fun acc d =>
    let names :=
      match d with
      | .importDecl ns _ _ => ns.map Token.text
      | .importAliasDecl n _ _ => [n.text]
      | .recordDecl r => [r.name.text]
      | .methodDecl m => [m.name.text]
      | .constantDecl c => [c.name.text]
    names.foldl (fun acc n =>
      if (acc.lookup n).isSome then acc else acc ++ [(n, d)]) acc) []

/-- Normalizes the segments of a POSIX path (`paths.normalize`): drops empty
and `.` segments, folds `..` into the preceding segment where possible. -/
def normalizeSegments : List String → List String → List String
  | acc, [] => acc
  | acc, seg :: rest =>
    if seg = "" ∨ seg = "." then normalizeSegments acc rest
    else if seg = ".." then
      match acc.getLast? with
      | some last =>
        if last = ".." then normalizeSegments (acc ++ [".."]) rest
        else normalizeSegments acc.dropLast rest
      | none => normalizeSegments [".."] rest
    else normalizeSegments (acc ++ [seg]) rest

/-- `paths.normalize` for relative POSIX paths: `a/./b/../c` becomes `a/c`. -/
def pathNormalize (p : String) : String :=
  match normalizeSegments [] (strSplitOnChar '/' p) with
  | [] => "."
  | segs => joinSlash segs

/-- `paths.join`: concatenation followed by normalization. -/
def pathJoin (parts : List String) : String :=
  pathNormalize (joinSlash parts)

/-- `resolveModulePath`: unquotes the import path token, rejects
backslashes, resolves `./`-relative paths against the importing module, and
rejects paths escaping the root. -/
def resolveModulePath (pathToken : Token) (originModulePath : String) :
    Option String × List SoiaError :=
  let modulePath := unquoteAndUnescape pathToken.text
  if modulePath.data.contains '\\' then
    (none, [{ token := pathToken, message := some "Replace backslash with slash" }])
  else
    let modulePath :=
      if strStartsWith modulePath "./" || strStartsWith modulePath "../" then
        -- A relative path from the module, turned into a path from root.
        pathJoin [originModulePath, "..", modulePath]
      else modulePath
    let modulePath := pathNormalize modulePath
    if strStartsWith modulePath "../" then
      (none,
        [{ token := pathToken
           message := some "Module path must point to a file within root" }])
    else (some modulePath, [])

/-- The scope iterator of `resolveRecordRef`: a record or a module. -/
inductive ScopeIt where
  | recordScope (r : RecordData)
  | moduleScope (m : Module)

/-- The outcome of looking up one name segment in the current scope. -/
inductive ScopeDecl where
  | recordFound (r : RecordData)
  | importFound (importedNames : List Token) (modulePath : Token)
      (resolvedModulePath : Option String)
  | importAliasFound (name : Token) (modulePath : Token)
      (resolvedModulePath : Option String)
  | otherFound

/-- `it.nameToDeclaration[name]` for either kind of scope. -/
def scopeLookup : ScopeIt → String → Option ScopeDecl
  | .recordScope r, name =>
    match r.nameToDeclaration.lookup name with
    | some (.fieldDecl _) => some .otherFound
    | some (.recordDecl rd) => some (.recordFound rd)
    | none => none
  | .moduleScope m, name =>
    match m.nameToDeclaration.lookup name with
    | some (.recordDecl rd) => some (.recordFound rd)
    | some (.importDecl a b c) => some (.importFound a b c)
    | some (.importAliasDecl a b c) => some (.importAliasFound a b c)
    | some _ => some .otherFound
    | none => none

/-- `Cannot find name` diagnostic. -/
def makeCannotFindNameError (name : Token) : SoiaError :=
  { token := name
    message := some ("Cannot find name " ++ sq ++ name.text ++ sq) }

/-- `Does not refer to a struct or an enum` diagnostic. -/
def makeNotARecordError (name : Token) : SoiaError :=
  { token := name, message := some "Does not refer to a struct or an enum" }

/-- `Cannot reimport imported name` diagnostic. -/
def makeCannotReimportError (name : Token) : SoiaError :=
  { token := name
    message :=
      some ("Cannot reimport imported name " ++ sq ++ name.text ++ sq) }

/-- The name-segment loop of `TypeResolver.resolveRecordRef`. `i` is the
index of the current segment (imports may only appear as segment 0). -/
def resolveRefLoop (modules : List (String × SResult Module))
    (i : Nat) (it : ScopeIt) (used : List String) :
    List Token → Option ScopeIt × List String × List SoiaError
  | [] => (some it, used, [])
  | namePart :: rest =>
    let name := namePart.text
    match scopeLookup it name with
    | none => (none, used, [makeCannotFindNameError namePart])
    | some (.recordFound rd) =>
      resolveRefLoop modules (i + 1) (.recordScope rd) used rest
    | some .otherFound => (none, used, [makeNotARecordError namePart])
    | some (.importFound _ _ resolvedModulePath) =>
      if i ≠ 0 then (none, used, [makeCannotReimportError namePart])
      else
        let used := used ++ [name]
        match resolvedModulePath with
        | none => (none, used, [])
        | some newModulePath =>
          match modules.lookup newModulePath with
          | none => (none, used, [])
          | some newModuleResult =>
            match newModuleResult.result with
            | none =>
              -- The module was not found or has errors: an error was
              -- already registered.
              (none, used, [])
            | some newModule =>
              match newModule.nameToDeclaration.lookup name with
              | none => (none, used, [makeCannotFindNameError namePart])
              | some (.recordDecl rd) =>
                resolveRefLoop modules (i + 1) (.recordScope rd) used rest
              | some (.importDecl _ _ _) =>
                (none, used, [makeCannotReimportError namePart])
              | some (.importAliasDecl _ _ _) =>
                (none, used, [makeCannotReimportError namePart])
              | some _ => (none, used, [makeNotARecordError namePart])
    | some (.importAliasFound _ _ resolvedModulePath) =>
      if i ≠ 0 then (none, used, [makeCannotReimportError namePart])
      else
        let used := used ++ [name]
        match resolvedModulePath with
        | none => (none, used, [])
        | some newModulePath =>
          match modules.lookup newModulePath with
          | none => (none, used, [])
          | some newModuleResult =>
            match newModuleResult.result with
            | none => (none, used, [])
            | some newModule =>
              resolveRefLoop modules (i + 1) (.moduleScope newModule) used rest

/-- `TypeResolver.resolveRecordRef`: the name resolution algorithm.
`recordOrigin` is `none` for a `"top-level"` resolution. -/
def resolveRecordRef (module : Module)
    (modules : List (String × SResult Module))
    (recordOrigin : Option RecordLocation) (nameParts : List Token)
    (absolute : Bool) (used : List String) :
    Option ResolvedType × List String × List SoiaError :=
  match nameParts.head? with
  | none => (none, used, [])  -- the parser guarantees a nonempty name
  | some firstNamePart =>
    -- The most nested record/module which contains the first name in the
    -- record reference, or the module if the reference is absolute.
    let start : ScopeIt :=
      match recordOrigin with
      | some origin =>
        if absolute then .moduleScope module
        else
          match origin.recordAncestors.reverse.find? (fun fromRecord =>
              match fromRecord.nameToDeclaration.lookup firstNamePart.text with
              | some (.recordDecl _) => true
              | _ => false) with
          | some fromRecord => .recordScope fromRecord
          | none => .moduleScope module
      | none => .moduleScope module
    match resolveRefLoop modules 0 start used nameParts with
    | (none, used, errs) => (none, used, errs)
    | (some (.recordScope r), used, errs) =>
      (some (.record r.key r.recordType
          ((nameParts.getLast? ).getD firstNamePart)), used, errs)
    | (some (.moduleScope _), used, errs) =>
      (none, used, errs ++ [makeNotARecordError firstNamePart])

/-- `TypeResolver.resolve`. -/
def resolveType (module : Module) (modules : List (String × SResult Module))
    (recordOrigin : Option RecordLocation) (used : List String) :
    UnresolvedType → Option ResolvedType × List String × List SoiaError
  | .primitive p => (some (.primitive p), used, [])
  | .array item key =>
    match resolveType module modules recordOrigin used item with
    | (none, used, errs) => (none, used, errs)
    | (some item', used, errs) => (some (.array item' key), used, errs)
  | .optional other =>
    match resolveType module modules recordOrigin used other with
    | (none, used, errs) => (none, used, errs)
    | (some value, used, errs) => (some (.optional value), used, errs)
  | .record nameParts absolute =>
    resolveRecordRef module modules recordOrigin nameParts absolute used

end Soia

namespace Soia

/-- The path-walking loop of the `validate` closure in
`ModuleSet.validateArrayKeys`. `prev` is the name of the previously walked
segment (`none` on the first segment). Returns the computed `keyType`
decoration when the path is valid. -/
def validateKeyPath (recordMap : List (String × RecordLocation))
    (pipeToken : Token) (prev : Option Token) (currentType : ResolvedType)
    (enumRef : Option String) :
    List Token → Option KeyType × List SoiaError
  | [] =>
    match currentType with
    | .primitive p =>
      (some (match enumRef with
        | some k => KeyType.enumRef k
        | none => KeyType.primitive p), [])
    | _ =>
      (none,
        [{ token := prev.getD pipeToken
           message := some "Does not have primitive type" }])
  | fieldName :: rest =>
    match currentType with
    | .record key _ _ =>
      -- `this.recordMap.get(currentType.key)!` cannot fail on resolved input.
      match recordMap.lookup key with
      | none => (none, [])
      | some loc =>
        if loc.record.recordType = .struct then
          match loc.record.nameToDeclaration.lookup fieldName.text with
          | some (.fieldDecl field) =>
            match field.type with
            | none => (none, [])  -- an error was already registered
            | some fieldType =>
              validateKeyPath recordMap pipeToken (some fieldName) fieldType
                enumRef rest
          | _ =>
            (none,
              [{ token := fieldName
                 message :=
                   some ("Field not found in struct " ++
                     loc.record.name.text) }])
        else
          -- An enum: only the `kind` pseudo-field is addressable.
          if fieldName.text ≠ "kind" then
            (none,
              [{ token := fieldName, expected := some ("\"kind\"") }])
          else
            validateKeyPath recordMap pipeToken (some fieldName)
              (.primitive .string) (some key) rest
    | _ =>
      match prev with
      | none =>
        (none,
          [{ token := pipeToken, message := some "Item must have struct type" }])
      | some previousFieldName =>
        (none,
          [{ token := previousFieldName, message := some "Must have struct type" }])

/-- `ModuleSet.validateArrayKeys`: walks the type, validates every keyed
array's field path, and populates the `keyType` decorations. Returns the
decorated type and the diagnostics. -/
def validateArrayKeys (recordMap : List (String × RecordLocation)) :
    ResolvedType → ResolvedType × List SoiaError
  | .array item key =>
    let validated :
        Option FieldPath × List SoiaError :=
      match key with
      | none => (none, [])
      | some k =>
        match validateKeyPath recordMap k.pipeToken none item none k.path with
        | (some keyType, errs) => (some { k with keyType := keyType }, errs)
        | (none, errs) => (some k, errs)
    let (item', itemErrs) := validateArrayKeys recordMap item
    (.array item' validated.1, validated.2 ++ itemErrs)
  | .optional other =>
    let (other', errs) := validateArrayKeys recordMap other
    (.optional other', errs)
  | t => (t, [])

/-- The import-merging pass of `doParseAndResolve` for a single target path
(the body of the `for (const [path, imports] of pathToImports)` loop).
An import entry is `(importedNames?, aliasName?, pathToken)`. -/
def mergeImportsForPath
    (imports : List ((Option (List Token)) × Option Token × Token)) :
    Option ImportedNames × List SoiaError :=
  let importsNoAlias := imports.filterMap fun i =>
    match i.1 with
    | some names => some (names, i.2.2)
    | none => none
  let importsWithAlias := imports.filterMap fun i =>
    match i.2.1 with
    | some aliasName => some (aliasName, i.2.2)
    | none => none
  if ¬ importsNoAlias.isEmpty ∧ ¬ importsWithAlias.isEmpty then
    (none, importsNoAlias.map fun i =>
      { token := i.2, message := some "Module already imported with an alias" })
  else if 2 ≤ importsWithAlias.length then
    (none, (importsWithAlias.drop 1).map fun i =>
      { token := i.2
        message := some "Module already imported with a different alias" })
  else if ¬ importsNoAlias.isEmpty then
    -- The union of the imported names, in first-occurrence order (JS `Set`).
    let names := importsNoAlias.foldl (fun acc i =>
      i.1.foldl (fun acc n =>
        if acc.contains n.text then acc else acc ++ [n.text]) acc) []
    (some (.someNames names), [])
  else
    match importsWithAlias.head? with
    | some (aliasName, _) => (some (.allNames aliasName.text), [])
    | none => (none, [])

/-- The whole import-merging pass: computes the `pathToImportedNames`
entries and the merge diagnostics, in `pathToImports` iteration order. -/
def mergeImports
    (pathToImports :
      List (String × List ((Option (List Token)) × Option Token × Token))) :
    List (String × ImportedNames) × List SoiaError :=
  pathToImports.foldl (fun acc e =>
    match mergeImportsForPath e.2 with
    | (some entry, errs) => (acc.1 ++ [(e.1, entry)], acc.2 ++ errs)
    | (none, errs) => (acc.1, acc.2 ++ errs)) ([], [])

/-- Loop 2 of the resolution pipeline
(`ModuleSet.storeResolvedFieldTypes` over every record of the module):
resolves every field's unresolved type, threading the used-imports set and
the diagnostics. -/
def storeResolvedFieldTypesAll (module : Module)
    (modules : List (String × SResult Module))
    (records : List RecordLocation) (used : List String) :
    List RecordLocation × List String × List SoiaError :=
  records.foldl (fun acc rl =>
    let (accRecords, used, errs) := acc
    let fieldsFolded :=
      rl.record.nameToDeclaration.foldl (fun facc d =>
        let (decls, used, errs) := facc
        match d.2 with
        | .recordDecl rd => (decls ++ [(d.1, RecDecl.recordDecl rd)], used, errs)
        | .fieldDecl f =>
          match f.unresolvedType with
          | none =>
            -- A constant enum field.
            (decls ++ [(d.1, RecDecl.fieldDecl f)], used, errs)
          | some ut =>
            let (t, used, errs') :=
              resolveType module modules (some rl) used ut
            (decls ++ [(d.1, RecDecl.fieldDecl { f with type := t })], used,
              errs ++ errs'))
        ([], used, [])
    let (decls', used', errs') := fieldsFolded
    let record' :=
      match rl.record with
      | .mk key name rt _ nb rn n s si => RecordData.mk key name rt decls' nb rn n s si
    (accRecords ++ [{ rl with record := record' }], used', errs ++ errs'))
    ([], used, [])

/-- Loop 3 of the resolution pipeline for one record: recursion
classification, the numbering constraint, and keyed-array validation of
every field type (which decorates the field types in place in the source).
Returns the updated record and its diagnostics. -/
def finalizeRecord (recordMap : List (String × RecordLocation)) (fuel : Nat)
    (rl : RecordLocation) : RecordLocation × List SoiaError :=
  let record := storeFieldRecursivity recordMap fuel rl.record
  let numberingErrors := verifyNumberingConstraint recordMap record
  let (record', keyErrors) :=
    match record with
    | .mk key name rt decls nb rn n s si =>
      let folded := decls.foldl (fun acc d =>
        match d.2 with
        | .recordDecl rd => (acc.1 ++ [(d.1, RecDecl.recordDecl rd)], acc.2)
        | .fieldDecl f =>
          match f.type with
          | none => (acc.1 ++ [(d.1, RecDecl.fieldDecl f)], acc.2)
          | some t =>
            let (t', errs) := validateArrayKeys recordMap t
            (acc.1 ++ [(d.1, RecDecl.fieldDecl { f with type := some t' })],
              acc.2 ++ errs)) ([], [])
      (RecordData.mk key name rt folded.1 nb rn n s si, folded.2)
  ({ rl with record := record' }, numberingErrors ++ keyErrors)

/-- `ensureAllImportsAreUsed`. -/
def ensureAllImportsAreUsed (declarations : List ModuleDecl)
    (usedImports : List String) : List SoiaError :=
  declarations.foldl (fun acc d =>
    match d with
    | .importDecl importedNames _ _ =>
      acc ++ importedNames.filterMap fun importedName =>
        if usedImports.contains importedName.text then none
        else some { token := importedName, message := some "Unused import" }
    | .importAliasDecl name _ _ =>
      if usedImports.contains name.text then acc
      else acc ++ [{ token := name, message := some "Unused import alias" }]
    | _ => acc) []

end Soia

namespace Soia

/-- The method-resolution pass of `doParseAndResolve`: resolves every
method's request/response type at top level and validates their array keys. -/
def resolveMethodsPass (module : Module)
    (modules : List (String × SResult Module))
    (recordMap : List (String × RecordLocation)) (decls : List ModuleDecl)
    (used : List String) : List ModuleDecl × List String × List SoiaError :=
  decls.foldl (fun acc d =>
    let (ds, used, errs) := acc
    match d with
    | .methodDecl m =>
      let (requestType, used, errsReq) :=
        resolveType module modules none used m.unresolvedRequestType
      let (requestType, errsReq) :=
        match requestType with
        | some t =>
          let (t', e) := validateArrayKeys recordMap t
          (some t', errsReq ++ e)
        | none => (none, errsReq)
      let (responseType, used, errsResp) :=
        resolveType module modules none used m.unresolvedResponseType
      let (responseType, errsResp) :=
        match responseType with
        | some t =>
          let (t', e) := validateArrayKeys recordMap t
          (some t', errsResp ++ e)
        | none => (none, errsResp)
      (ds ++ [ModuleDecl.methodDecl
          { m with requestType := requestType, responseType := responseType }],
        used, errs ++ errsReq ++ errsResp)
    | other => (ds ++ [other], used, errs)) ([], used, [])

/-- The constant-resolution pass of `doParseAndResolve`: resolves every
constant's type, validates its array keys, and lowers the literal value to
dense JSON. -/
def resolveConstantsPass (module : Module)
    (modules : List (String × SResult Module))
    (recordMap : List (String × RecordLocation)) (fuel : Nat)
    (decls : List ModuleDecl) (used : List String) :
    List ModuleDecl × List String × List SoiaError :=
  decls.foldl (fun acc d =>
    let (ds, used, errs) := acc
    match d with
    | .constantDecl c =>
      let (t, used, errs1) := resolveType module modules none used c.unresolvedType
      match t with
      | none =>
        (ds ++ [ModuleDecl.constantDecl { c with type := none }], used,
          errs ++ errs1)
      | some t =>
        let (t', errs2) := validateArrayKeys recordMap t
        let (dj, errs3) := valueToDenseJson recordMap fuel c.value t'
        (ds ++ [ModuleDecl.constantDecl
            { c with type := some t', valueAsDenseJson := dj }], used,
          errs ++ errs1 ++ errs2 ++ errs3)
    | other => (ds ++ [other], used, errs)) ([], used, [])

/-- The circular-dependency diagnostic text. -/
def circularDependencyMessage : String := "Circular dependency between modules"

/-- A `pathToImports` map: target path to the import declarations naming it;
each entry is `(importedNames?, aliasName?, pathToken)`. -/
def PathToImports : Type :=
  List (String × List ((Option (List Token)) × Option Token × Token))

/-- Appends one import entry to a `pathToImports` map. -/
def appendPathEntry (acc : PathToImports) (p : String)
    (entry : (Option (List Token)) × Option Token × Token) : PathToImports :=
  match List.lookup p acc with
  | some l => mapSet acc p (l ++ [entry])
  | none => List.append acc [(p, [entry])]

/-- Handles one import declaration, given the recursive resolution function:
module-path resolution, circular-import detection, recursive resolution of
the target module, and error propagation. -/
def processOneImport
    (resolveFn : ModuleSetState → String → List String →
      SResult Module × ModuleSetState)
    (modulePath : String) (inProgressSet : List String) (st : ModuleSetState)
    (pathToken : Token) : Option String × List SoiaError × ModuleSetState :=
  let (resolved, errs0) := resolveModulePath pathToken modulePath
  match resolved with
  | none =>
    -- An error was already registered.
    (none, errs0, st)
  | some otherModulePath =>
    -- Add the imported module to the module set.
    if inProgressSet.contains modulePath then
      (some otherModulePath,
        errs0 ++ [{ token := pathToken, message := some circularDependencyMessage }],
        st)
    else
      let (otherModule, st') :=
        resolveFn st otherModulePath (inProgressSet ++ [modulePath])
      match otherModule.result with
      | none =>
        (some otherModulePath,
          errs0 ++ [{ token := pathToken, message := some "Module not found" }],
          st')
      | some _ =>
        if otherModule.errors ≠ [] then
          if otherModule.errors.any
              (fun e => e.message = some circularDependencyMessage) then
            (some otherModulePath,
              errs0 ++
                [{ token := pathToken
                   message := some circularDependencyMessage }], st')
          else
            (some otherModulePath,
              errs0 ++
                [{ token := pathToken
                   message := some "Imported module has errors"
                   errorIsInOtherModule := true }], st')
        else (some otherModulePath, errs0, st')

/-- The import-processing loop of `doParseAndResolve`, given the recursive
resolution function (accumulator-passing): decorates each import declaration
with its resolved path, registers it in `pathToImports`, and lets
`processOneImport` handle the recursive resolution. -/
def processImports
    (resolveFn : ModuleSetState → String → List String →
      SResult Module × ModuleSetState)
    (modulePath : String) (inProgressSet : List String) (st : ModuleSetState)
    (accDecls : List ModuleDecl) (accPath : PathToImports)
    (accErrs : List SoiaError) :
    List ModuleDecl →
      List ModuleDecl × PathToImports × List SoiaError × ModuleSetState
  | [] => (accDecls, accPath, accErrs, st)
  | d :: rest =>
    match d with
    | .importDecl importedNames pathToken _ =>
      let (resolved, errs, st') :=
        processOneImport resolveFn modulePath inProgressSet st pathToken
      let d' := ModuleDecl.importDecl importedNames pathToken resolved
      let accPath' :=
        match resolved with
        | some p => appendPathEntry accPath p (some importedNames, none, pathToken)
        | none => accPath
      processImports resolveFn modulePath inProgressSet st' (accDecls ++ [d'])
        accPath' (accErrs ++ errs) rest
    | .importAliasDecl aliasName pathToken _ =>
      let (resolved, errs, st') :=
        processOneImport resolveFn modulePath inProgressSet st pathToken
      let d' := ModuleDecl.importAliasDecl aliasName pathToken resolved
      let accPath' :=
        match resolved with
        | some p => appendPathEntry accPath p (none, some aliasName, pathToken)
        | none => accPath
      processImports resolveFn modulePath inProgressSet st' (accDecls ++ [d'])
        accPath' (accErrs ++ errs) rest
    | other =>
      processImports resolveFn modulePath inProgressSet st (accDecls ++ [other])
        accPath accErrs rest

/-- `ModuleSet.doParseAndResolve`: the per-module resolution pipeline, given
the recursive resolution function used for imports and the fuel passed to
the bounded analyses (`collectTypeDeps`, `valueToDenseJson`). -/
def doParseAndResolve (pr : String → SResult Module)
    (resolveFn : ModuleSetState → String → List String →
      SResult Module × ModuleSetState)
    (fuel : Nat) (st : ModuleSetState) (modulePath : String)
    (inProgressSet : List String) : SResult Module × ModuleSetState :=
  let parseResult := pr modulePath
  match parseResult.result with
  | none => (parseResult, st)
  | some module0 =>
    -- Process all imports.
    let (decls1, pathToImports, importErrors, st1) :=
      processImports resolveFn modulePath inProgressSet st [] [] []
        module0.declarations
    let (p2i, mergeErrors) := mergeImports pathToImports
    let errors1 := parseResult.errors ++ importErrors ++ mergeErrors
    let module1 : Module :=
      { module0 with
          declarations := decls1
          nameToDeclaration := buildNameToDeclaration decls1
          pathToImportedNames := p2i }
    if errors1 ≠ [] then ({ result := some module1, errors := errors1 }, st1)
    else
      -- Loop 1: merge the module records into the cross-module record map.
      let rm1 := module1.records.foldl
        (fun m rl => mapSet m rl.record.key rl) st1.recordMap
      -- Loop 2: resolve every field type of every record in the module.
      let (records2, used2, errors2) :=
        storeResolvedFieldTypesAll module1 st1.modules module1.records []
      let rm2 := records2.foldl (fun m rl => mapSet m rl.record.key rl) rm1
      -- Loop 3: recursion classification, numbering constraint, array keys.
      let loop3 := records2.foldl (fun acc rl =>
        let (rl', errs) := finalizeRecord rm2 fuel rl
        (acc.1 ++ [rl'], acc.2 ++ errs)) (([] : List RecordLocation), [])
      let records3 := loop3.1
      let errors3 := loop3.2
      let rm3 := records3.foldl (fun m rl => mapSet m rl.record.key rl) rm2
      -- Resolve every request/response type of every method.
      let (decls2, used3, errors4) :=
        resolveMethodsPass module1 st1.modules rm3 decls1 used2
      -- Resolve every constant type and lower its value.
      let (decls3, used4, errors5) :=
        resolveConstantsPass module1 st1.modules rm3 fuel decls2 used3
      let errors6 := ensureAllImportsAreUsed decls3 used4
      let module2 : Module :=
        { module1 with
            declarations := decls3
            nameToDeclaration := buildNameToDeclaration decls3
            records := records3 }
      -- The source pushes the module object into `resolvedModules` and the
      -- record map before decorating it in place; the embedding installs
      -- the decorated module, observationally equal once resolution ends.
      let st2 :=
        { st1 with
            recordMap := rm3
            resolvedModules := st1.resolvedModules ++ [module2] }
      ({ result := some module2
         errors := errors2 ++ errors3 ++ errors4 ++ errors5 ++ errors6 },
        st2)

/-- `ModuleSet.parseAndResolve`: memoized per path; flattens the result's
errors into the module set's error list. `fuel` bounds the recursive
resolution of imported modules (bounded in the source by the memoization map
and the in-progress set). -/
def parseAndResolve (pr : String → SResult Module) :
    Nat → ModuleSetState → String → List String →
      SResult Module × ModuleSetState
  | 0, st, _, _ => (⟨none, []⟩, st)
  | fuel + 1, st, modulePath, inProgressSet =>
    match st.modules.lookup modulePath with
    | some inMap => (inMap, st)
    | none =>
      let (result, st') :=
        doParseAndResolve pr
          (fun st p ips => parseAndResolve pr fuel st p ips) fuel st
          modulePath inProgressSet
      (result,
        { st' with
            modules := mapSet st'.modules modulePath result
            errors := st'.errors ++ result.errors })

end Soia

namespace Soia

/-- The directed widening relation on primitive types exactly as the
specification states it. -/
def specWidens (before after : Primitive) : Bool :=
  match before with
  | .bool =>
    decide (after ∈ [Primitive.bool, .int32, .int64, .uint64, .float32, .float64])
  | .int32 =>
    decide (after ∈ [Primitive.int32, .int64, .uint64, .float32, .float64])
  | .int64 => decide (after ∈ [Primitive.int64, .float32, .float64])
  | .uint64 => decide (after ∈ [Primitive.uint64, .float32, .float64])
  | .float32 => decide (after ∈ [Primitive.float32, .float64])
  | .float64 => decide (after ∈ [Primitive.float32, .float64])
  | .timestamp => decide (after = .timestamp)
  | .string => decide (after = .string)
  | .bytes => decide (after = .bytes)

/-- The method hash exactly as the specification words it: starting from 0,
for each UTF-16 code unit, `hash = hash * 31 + charCode` truncated to 32
bits. -/
def specRollingHash (s : String) : Nat :=
  s.data.foldl (fun h c => (h * 31 + c.toNat) % 2 ^ 32) 0

/-- `[start, start+1, ..., start+n-1]` as integers. -/
def intRange (start : Int) (n : Nat) : List Int :=
  (List.range n).map fun k => start + Int.ofNat k

/-- True when a record-level declaration consumes a numbering slot under
implicit numbering (fields and bare `removed;` markers). -/
def consumesSlot : RecordLevelDecl → Bool
  | .fieldDecl _ => true
  | .recordDecl _ => false
  | .removedDecl _ _ => true

/-- The number of slot-consuming declarations. -/
def implicitSlotCount (ds : List RecordLevelDecl) : Nat :=
  (ds.filter consumesSlot).length

/-- The declared name of a record-level declaration, when it has one. -/
def declName : RecordLevelDecl → Option String
  | .fieldDecl f => some f.name.text
  | .recordDecl r => some r.name.text
  | .removedDecl _ _ => none

/-- The declaration carries no explicit number. -/
def implicitDecl : RecordLevelDecl → Prop
  | .fieldDecl f => f.number < 0
  | .recordDecl _ => True
  | .removedDecl _ numbers => numbers = []

/-- The expected declaration-map suffix after processing implicitly numbered
declarations when `m` slots are already taken: the k-th slot-consuming
declaration from there receives number `(m + k) + offset`. -/
def expectedEntries (offset : Int) (m : Nat) :
    List RecordLevelDecl → List (String × RecDecl)
  | [] => []
  | .fieldDecl f :: rest =>
    (f.name.text, RecDecl.fieldDecl { f with number := (m : Int) + offset }) ::
      expectedEntries offset (m + 1) rest
  | .recordDecl r :: rest =>
    (r.name.text, RecDecl.recordDecl r) :: expectedEntries offset m rest
  | .removedDecl _ _ :: rest => expectedEntries offset (m + 1) rest

/-- The expected removed-number suffix (bare `removed;` markers also consume
one slot each). -/
def expectedRemoved (offset : Int) (m : Nat) :
    List RecordLevelDecl → List Int
  | [] => []
  | .fieldDecl _ :: rest => expectedRemoved offset (m + 1) rest
  | .recordDecl _ :: rest => expectedRemoved offset m rest
  | .removedDecl _ _ :: rest =>
    ((m : Int) + offset) :: expectedRemoved offset (m + 1) rest

end Soia

namespace Soia

/-- The trimmed length the specification prescribes, starting from an
already-reached length `acc`: the fold of `max (field.number + 1)` over the
fields whose lowered value is not their type's default. -/
def specTrimmedLengthFrom
    (recurse : Value → ResolvedType → Option DenseJson × List SoiaError)
    (entries : List (String × Token × Value)) (fields : List Field)
    (acc : Nat) : Nat :=
  fields.foldl (fun acc field =>
    match field.type with
    | none => acc
    | some t =>
      match entries.lookup field.name.text with
      | none => acc
      | some (_, v) =>
        match (recurse v t).1 with
        | none => acc
        | some vj =>
          if hasDefaultValueB t vj then acc
          else max acc (field.number.toNat + 1)) acc

/-- One plus the highest field number holding a non-default value (zero when
there is none). -/
def specTrimmedLength
    (recurse : Value → ResolvedType → Option DenseJson × List SoiaError)
    (entries : List (String × Token × Value)) (fields : List Field) : Nat :=
  specTrimmedLengthFrom recurse entries fields 0

/-- The reference relation exactly as the claim amends it: the field type
references an implicitly numbered record iff stripping array items and
optional wrappers reaches a record reference whose target uses implicit
numbering (the fields of referenced records are not descended into). -/
def specDirectlyReferencesImplicit
    (recordMap : List (String × RecordLocation)) : ResolvedType → Bool
  | .array item _ => specDirectlyReferencesImplicit recordMap item
  | .optional other => specDirectlyReferencesImplicit recordMap other
  | .primitive _ => false
  | .record key _ _ =>
    match recordMap.lookup key with
    | none => false
    | some loc => loc.record.numbering = .implicit

end Soia

namespace Soia

/-- `struct B { b: B; }` — the hard self-recursion example. -/
def c4FieldB : Field :=
  ⟨⟨"b", "m", 15⟩, 0, none, some (.record "m:10" .struct ⟨"B", "m", 18⟩), .no⟩

/-- The record `B`. -/
def c4RecordB : RecordData :=
  .mk "m:10" ⟨"B", "m", 10⟩ .struct [("b", .fieldDecl c4FieldB)] .implicit []
    none 1 1

/-- `struct C { c: C?; }` — soft recursion through an optional. -/
def c4FieldC : Field :=
  ⟨⟨"c", "m", 25⟩, 0, none,
    some (.optional (.record "m:20" .struct ⟨"C", "m", 28⟩)), .no⟩

/-- The record `C`. -/
def c4RecordC : RecordData :=
  .mk "m:20" ⟨"C", "m", 20⟩ .struct [("c", .fieldDecl c4FieldC)] .implicit []
    none 1 1

/-- `struct D { d: [D]; }` — soft recursion through an array. -/
def c4FieldD : Field :=
  ⟨⟨"d", "m", 35⟩, 0, none,
    some (.array (.record "m:30" .struct ⟨"D", "m", 38⟩) none), .no⟩

/-- The record `D`. -/
def c4RecordD : RecordData :=
  .mk "m:30" ⟨"D", "m", 30⟩ .struct [("d", .fieldDecl c4FieldD)] .implicit []
    none 1 1

/-- `struct E { f: F; }` — mutual hard recursion, first half. -/
def c4FieldF : Field :=
  ⟨⟨"f", "m", 45⟩, 0, none, some (.record "m:50" .struct ⟨"F", "m", 48⟩), .no⟩

/-- The record `E`. -/
def c4RecordE : RecordData :=
  .mk "m:40" ⟨"E", "m", 40⟩ .struct [("f", .fieldDecl c4FieldF)] .implicit []
    none 1 1

/-- `struct F { e: E; }` — mutual hard recursion, second half. -/
def c4FieldE : Field :=
  ⟨⟨"e", "m", 55⟩, 0, none, some (.record "m:40" .struct ⟨"E", "m", 58⟩), .no⟩

/-- The record `F`. -/
def c4RecordF : RecordData :=
  .mk "m:50" ⟨"F", "m", 50⟩ .struct [("e", .fieldDecl c4FieldE)] .implicit []
    none 1 1

/-- `enum G { g: G; }` — a self-recursive enum value variant. -/
def c4FieldG : Field :=
  ⟨⟨"g", "m", 65⟩, 1, none, some (.record "m:60" .enum ⟨"G", "m", 68⟩), .no⟩

/-- The record `G`. -/
def c4RecordG : RecordData :=
  .mk "m:60" ⟨"G", "m", 60⟩ .enum [("g", .fieldDecl c4FieldG)] .implicit []
    none 0 0

/-- The resolved record map holding the recursion-classification examples. -/
def c4RecordMap : List (String × RecordLocation) :=
  [("m:10", ⟨c4RecordB, [c4RecordB], "m"⟩),
   ("m:20", ⟨c4RecordC, [c4RecordC], "m"⟩),
   ("m:30", ⟨c4RecordD, [c4RecordD], "m"⟩),
   ("m:40", ⟨c4RecordE, [c4RecordE], "m"⟩),
   ("m:50", ⟨c4RecordF, [c4RecordF], "m"⟩),
   ("m:60", ⟨c4RecordG, [c4RecordG], "m"⟩)]

/-- An implicitly numbered struct `I`. -/
def c6RecordI : RecordData :=
  .mk "m:100" ⟨"I", "m", 100⟩ .struct
    [("x", .fieldDecl ⟨⟨"x", "m", 105⟩, 0, none, some (.primitive .int32), .no⟩)]
    .implicit [] none 1 1

/-- The field `a: [I]` of the explicitly numbered struct `S`: it references
the implicitly numbered record `I` only through an array. -/
def c6FieldA : Field :=
  ⟨⟨"a", "m", 115⟩, 0, none,
    some (.array (.record "m:100" .struct ⟨"I", "m", 118⟩) none), .no⟩

/-- The explicitly numbered struct `S { a: [I] = 0; }`. -/
def c6RecordS : RecordData :=
  .mk "m:110" ⟨"S", "m", 110⟩ .struct [("a", .fieldDecl c6FieldA)] .explicit
    [] none 1 1

/-- The record map for the numbering-constraint counterexample. -/
def c6RecordMap : List (String × RecordLocation) :=
  [("m:100", ⟨c6RecordI, [c6RecordI], "m"⟩),
   ("m:110", ⟨c6RecordS, [c6RecordS], "m"⟩)]

/-- The unresolved reference token `Bar` in `struct Foo { bar: Bar; }`. -/
def c3BarRefToken : Token := ⟨"Bar", "m", 25⟩

/-- The field `bar: Bar;` whose type cannot be resolved. -/
def c3FooField : Field :=
  ⟨⟨"bar", "m", 20⟩, 0, some (.record [c3BarRefToken] false), none, .no⟩

/-- `struct Foo { bar: Bar; }` in module `m` (and `Bar` does not exist). -/
def c3FooRecord : RecordData :=
  .mk "m:7" ⟨"Foo", "m", 7⟩ .struct [("bar", .fieldDecl c3FooField)] .implicit
    [] none 1 1

/-- The location of `Foo`. -/
def c3FooLoc : RecordLocation := ⟨c3FooRecord, [c3FooRecord], "m"⟩

/-- Module `m`, which parses cleanly but fails type resolution. -/
def c3ModuleM : Module :=
  ⟨"m", [.recordDecl c3FooRecord], [("Foo", .recordDecl c3FooRecord)],
    [c3FooLoc], []⟩

/-- The module parser serving module `m`. -/
def c3ModuleParserFn : String → SResult Module := fun p =>
  if p = "m" then ⟨some c3ModuleM, []⟩ else ⟨none, []⟩

/-- An error-free module `n` containing `struct Bar {}`. -/
def c3BarRecord : RecordData :=
  .mk "n:5" ⟨"Bar", "n", 5⟩ .struct [] .empty [] none 0 0

/-- Module `n`. -/
def c3CleanModule : Module :=
  ⟨"n", [.recordDecl c3BarRecord], [("Bar", .recordDecl c3BarRecord)],
    [⟨c3BarRecord, [c3BarRecord], "n"⟩], []⟩

/-- The module parser serving module `n`. -/
def c3CleanParserFn : String → SResult Module := fun p =>
  if p = "n" then ⟨some c3CleanModule, []⟩ else ⟨none, []⟩

/-- The import path token `"b"` inside module `a`. -/
def c7PathTokenA : Token := ⟨"\"b\"", "a", 30⟩

/-- The alias token of `import * as b from "b";`. -/
def c7AliasTokenA : Token := ⟨"b", "a", 12⟩

/-- The import declaration of module `a`. -/
def c7ImportA : ModuleDecl := .importAliasDecl c7AliasTokenA c7PathTokenA none

/-- Module `a`, importing module `b`. -/
def c7ModuleA : Module := ⟨"a", [c7ImportA], [("b", c7ImportA)], [], []⟩

/-- The import path token `"a"` inside module `b`. -/
def c7PathTokenB : Token := ⟨"\"a\"", "b", 30⟩

/-- The alias token of `import * as a from "a";`. -/
def c7AliasTokenB : Token := ⟨"a", "b", 12⟩

/-- The import declaration of module `b`. -/
def c7ImportB : ModuleDecl := .importAliasDecl c7AliasTokenB c7PathTokenB none

/-- Module `b`, importing module `a`. -/
def c7ModuleB : Module := ⟨"b", [c7ImportB], [("a", c7ImportB)], [], []⟩

/-- The module parser serving the two mutually importing modules. -/
def c7ModuleParserFn : String → SResult Module := fun p =>
  if p = "a" then ⟨some c7ModuleA, []⟩
  else if p = "b" then ⟨some c7ModuleB, []⟩
  else ⟨none, []⟩

/-- A two-field struct `P { x: int32; y: int32; }` for the constant-lowering
witness. -/
def c5StructP : RecordData :=
  .mk "m:200" ⟨"P", "m", 200⟩ .struct
    [("x", .fieldDecl ⟨⟨"x", "m", 205⟩, 0, none, some (.primitive .int32), .no⟩),
     ("y", .fieldDecl ⟨⟨"y", "m", 210⟩, 1, none, some (.primitive .int32), .no⟩)]
    .implicit [] none 2 2

/-- The all-default literal `{x: 0, y: 0}`. -/
def c5ZeroValue : Value :=
  .object ⟨"\x7b", "m", 220⟩
    [("x", ⟨"x", "m", 221⟩, .literal ⟨"0", "m", 224⟩),
     ("y", ⟨"y", "m", 226⟩, .literal ⟨"0", "m", 229⟩)] false

end Soia

namespace Soia

/-- The live field `x` (number 0) of the slot-shrink example. -/
def c2FieldX : Field :=
  ⟨⟨"x", "m", 305⟩, 0, none, some (.primitive .int32), .no⟩

/-- The live field `y` (number 1) of the slot-shrink example. -/
def c2FieldY : Field :=
  ⟨⟨"y", "m", 310⟩, 1, none, some (.primitive .int32), .no⟩

/-- The before struct: 2 live fields plus removed numbers 2 and 3, so 4
slots including removed numbers. -/
def c2BeforeRecord : RecordData :=
  .mk "m:300" ⟨"S", "m", 300⟩ .struct
    [("x", .fieldDecl c2FieldX), ("y", .fieldDecl c2FieldY)] .explicit [2, 3]
    none 2 4

/-- The after struct: the same 2 live fields but no removed numbers, so only
2 slots including removed numbers. -/
def c2AfterRecord : RecordData :=
  .mk "n:300" ⟨"S", "n", 300⟩ .struct
    [("x", .fieldDecl c2FieldX), ("y", .fieldDecl c2FieldY)] .explicit []
    none 2 2

/-- The compared record pair of the slot-shrink example. -/
def c2Record : BeforeAfter RecordLocation :=
  ⟨⟨c2BeforeRecord, [c2BeforeRecord], "m"⟩,
   ⟨c2AfterRecord, [c2AfterRecord], "n"⟩⟩

/-- The record expressions of the slot-shrink example. -/
def c2Expr : BeforeAfter Expression :=
  ⟨.record ⟨"S", "m", 300⟩, .record ⟨"S", "n", 300⟩⟩

/-- The checker's record maps for the slot-shrink example. -/
def c2Maps : CheckerMaps :=
  ⟨[("m:300", c2Record.before)], [("n:300", c2Record.after)]⟩

end Soia

namespace Soia

theorem intRange_length (start : Int) (n : Nat) :
    (intRange start n).length = n := by
  unfold intRange
  rw [List.length_map, List.length_range]

theorem intRange_mem_iff (start x : Int) (n : Nat) :
    x ∈ intRange start n ↔ start ≤ x ∧ x < start + n := by
  simp only [intRange, List.mem_map, List.mem_range, Int.ofNat_eq_coe]
  constructor
  · rintro ⟨k, hk, rfl⟩
    omega
  · rintro ⟨h1, h2⟩
    exact ⟨(x - start).toNat, by omega, by omega⟩

theorem intRange_snoc (start : Int) (n : Nat) :
    intRange start n ++ [start + Int.ofNat n] = intRange start (n + 1) := by
  simp [intRange, List.range_succ]

theorem intRange_contains (start x : Int) (n : Nat) :
    (intRange start n).contains x = true ↔ start ≤ x ∧ x < start + n := by
  rw [List.elem_iff]
  exact intRange_mem_iff start x n

end Soia

namespace Soia

theorem addDeclaration_field_implicit (b : RecordBuilder) (f : Field)
    (hnb : b.numbering = .empty ∨ b.numbering = .implicit)
    (hnum : f.number < 0)
    (hlook : b.nameToDeclaration.lookup f.name.text = none)
    (hcontains : b.numbers.contains
      ((b.numbers.length : Int) + (if b.recordType = .enum then 1 else 0)) = false)
    (hzero : ¬ ((b.numbers.length : Int) +
      (if b.recordType = .enum then 1 else 0) = 0 ∧ b.recordType = .enum)) :
    addDeclaration b (.fieldDecl f) =
      { b with
          numbering := .implicit
          nameToDeclaration := b.nameToDeclaration ++
            [(f.name.text, .fieldDecl { f with
              number := (b.numbers.length : Int) +
                (if b.recordType = .enum then 1 else 0) })]
          numbers := b.numbers ++
            [(b.numbers.length : Int) + (if b.recordType = .enum then 1 else 0)] } := by
  have hnotbroken : b.numbering ≠ .broken := by
    rcases hnb with h | h <;> simp [h]
  simp only [addDeclaration, if_neg (by simpa using hnotbroken), hnum, if_pos hnum,
    hlook, Option.isSome_none, Bool.false_eq_true, if_false]
  have hmem : ¬ ((b.numbers.length : Int) +
      (if b.recordType = .enum then 1 else 0)) ∈ b.numbers := by
    intro hm
    rw [← List.elem_iff] at hm
    rw [show (b.numbers.elem ((b.numbers.length : Int) +
      (if b.recordType = .enum then 1 else 0))) = b.numbers.contains
      ((b.numbers.length : Int) + (if b.recordType = .enum then 1 else 0)) from rfl,
      hcontains] at hm
    exact Bool.false_ne_true hm
  rcases hnb with h | h
  · simp [h, registerNumbers, hmem, hzero, hlook]
  · simp [h, registerNumbers, hmem, hzero, hlook]

end Soia

namespace Soia

theorem addDeclaration_removed_implicit (b : RecordBuilder) (tok : Token)
    (hnb : b.numbering = .empty ∨ b.numbering = .implicit)
    (hcontains : b.numbers.contains
      ((b.numbers.length : Int) + (if b.recordType = .enum then 1 else 0)) = false)
    (hzero : ¬ ((b.numbers.length : Int) +
      (if b.recordType = .enum then 1 else 0) = 0 ∧ b.recordType = .enum)) :
    addDeclaration b (.removedDecl tok []) =
      { b with
          numbering := .implicit
          numbers := b.numbers ++
            [(b.numbers.length : Int) + (if b.recordType = .enum then 1 else 0)]
          removedNumbers := b.removedNumbers ++
            [(b.numbers.length : Int) + (if b.recordType = .enum then 1 else 0)] } := by
  have hnotbroken : b.numbering ≠ .broken := by
    rcases hnb with h | h <;> simp [h]
  have hmem : ¬ ((b.numbers.length : Int) +
      (if b.recordType = .enum then 1 else 0)) ∈ b.numbers := by
    intro hm
    rw [← List.elem_iff] at hm
    rw [show (b.numbers.elem ((b.numbers.length : Int) +
      (if b.recordType = .enum then 1 else 0))) = b.numbers.contains
      ((b.numbers.length : Int) + (if b.recordType = .enum then 1 else 0)) from rfl,
      hcontains] at hm
    exact Bool.false_ne_true hm
  simp only [addDeclaration, if_neg (by simpa using hnotbroken)]
  rcases hnb with h | h
  · simp [h, registerNumbers, hmem, hzero]
  · simp [h, registerNumbers, hmem, hzero]

theorem addDeclaration_record (b : RecordBuilder) (r : RecordData)
    (hnotbroken : b.numbering ≠ .broken)
    (hlook : b.nameToDeclaration.lookup r.name.text = none) :
    addDeclaration b (.recordDecl r) =
      { b with
          nameToDeclaration := b.nameToDeclaration ++
            [(r.name.text, .recordDecl r)] } := by
  simp only [addDeclaration, if_neg (by simpa using hnotbroken)]
  by_cases h : b.numbering = .empty
  · simp [h, registerNumbers, hlook]
  · simp [h, registerNumbers, hlook]

end Soia

namespace Soia

theorem lookup_append_of_none {α : Type} {l1 : List (String × α)}
    (l2 : List (String × α)) (k : String) (h : l1.lookup k = none) :
    (l1 ++ l2).lookup k = l2.lookup k := by
  induction l1 with
  | nil => simp
  | cons e rest ih =>
    cases e with
    | mk a bb =>
      simp only [List.lookup, List.cons_append] at h ⊢
      by_cases hkp : k = a
      · rw [show (k == a) = true from beq_iff_eq.mpr hkp] at h
        exact absurd h (by simp)
      · rw [show (k == a) = false from beq_eq_false_iff_ne.mpr hkp] at h ⊢
        exact ih h

theorem lookup_singleton_ne {α : Type} (k a : String) (v : α) (h : k ≠ a) :
    [(a, v)].lookup k = none := by
  simp only [List.lookup]
  rw [show (k == a) = false from beq_eq_false_iff_ne.mpr h]

end Soia

namespace Soia

theorem addDecls_aux (rt : RecordType) (ds : List RecordLevelDecl) :
    ∀ (b : RecordBuilder) (m : Nat),
      b.recordType = rt →
      b.numbers = intRange (if rt = .enum then 1 else 0) m →
      (b.numbering = .empty ∨ b.numbering = .implicit) →
      (∀ d ∈ ds, implicitDecl d) →
      (ds.filterMap declName).Nodup →
      (∀ name ∈ ds.filterMap declName, b.nameToDeclaration.lookup name = none) →
      (ds.foldl addDeclaration b).numbers =
          intRange (if rt = .enum then 1 else 0) (m + implicitSlotCount ds) ∧
        (ds.foldl addDeclaration b).nameToDeclaration =
          b.nameToDeclaration ++
            expectedEntries (if rt = .enum then 1 else 0) m ds ∧
        (ds.foldl addDeclaration b).removedNumbers =
          b.removedNumbers ++
            expectedRemoved (if rt = .enum then 1 else 0) m ds ∧
        ((ds.foldl addDeclaration b).numbering = .empty ∨
          (ds.foldl addDeclaration b).numbering = .implicit) := by
  induction ds with
  | nil =>
    intro b m hrt hnum hnb _ _ _
    simpa [implicitSlotCount, expectedEntries, expectedRemoved] using
      ⟨hnum, hnb⟩
  | cons d rest ih =>
    intro b m hrt hnum hnb hImpl hNodup hLook
    have hlen : b.numbers.length = m := by rw [hnum, intRange_length]
    have hoffsetb : (if b.recordType = .enum then 1 else 0 : Int) =
        (if rt = .enum then 1 else 0 : Int) := by rw [hrt]
    have hcontains : b.numbers.contains
        ((b.numbers.length : Int) +
          (if b.recordType = .enum then 1 else 0)) = false := by
      rw [hlen, hoffsetb, hnum]
      cases hc : (intRange (if rt = .enum then 1 else 0) m).contains
          ((m : Int) + (if rt = .enum then 1 else 0)) with
      | false => rfl
      | true =>
        have := (intRange_contains _ _ m).mp hc
        omega
    have hzero : ¬ ((b.numbers.length : Int) +
        (if b.recordType = .enum then 1 else 0) = 0 ∧
          b.recordType = .enum) := by
      rw [hlen, hoffsetb, hrt]
      rintro ⟨h0, he⟩
      rw [if_pos he] at h0
      omega
    have hsnoc : b.numbers ++ [(b.numbers.length : Int) +
        (if b.recordType = .enum then 1 else 0)] =
        intRange (if rt = .enum then 1 else 0) (m + 1) := by
      rw [hlen, hoffsetb, hnum, ← intRange_snoc]
      congr 2
      rw [Int.ofNat_eq_coe]
      omega
    cases d with
    | fieldDecl f =>
      have hfnum : f.number < 0 := hImpl _ (List.mem_cons_self _ _)
      have hheadname : declName (.fieldDecl f) = some f.name.text := rfl
      have hflook : b.nameToDeclaration.lookup f.name.text = none :=
        hLook _ (by simp [List.filterMap_cons, declName])
      have hstep := addDeclaration_field_implicit b f hnb hfnum hflook
        hcontains hzero
      have hnodup' := hNodup
      simp only [List.filterMap_cons, declName, List.nodup_cons] at hnodup'
      obtain ⟨hheadnotin, hrestnodup⟩ := hnodup'
      rw [List.foldl_cons, hstep]
      set b1 : RecordBuilder :=
        { b with
            numbering := .implicit
            nameToDeclaration := b.nameToDeclaration ++
              [(f.name.text, .fieldDecl { f with
                number := (b.numbers.length : Int) +
                  (if b.recordType = .enum then 1 else 0) })]
            numbers := b.numbers ++
              [(b.numbers.length : Int) +
                (if b.recordType = .enum then 1 else 0)] } with hb1
      have ihres := ih b1 (m + 1) (by rw [hb1]; exact hrt)
        (by rw [hb1]; exact hsnoc)
        (by rw [hb1]; right; rfl)
        (fun d hd => hImpl d (List.mem_cons_of_mem _ hd))
        hrestnodup
        (by
          intro name hname
          have hne : name ≠ f.name.text := fun he => hheadnotin (he ▸ hname)
          rw [hb1]
          show (b.nameToDeclaration ++ _).lookup name = none
          rw [lookup_append_of_none _ _ (hLook _ (by
            simp only [List.filterMap_cons, declName]
            exact List.mem_cons_of_mem _ hname))]
          exact lookup_singleton_ne _ _ _ hne)
      refine ⟨?_, ?_, ?_, ihres.2.2.2⟩
      · rw [ihres.1]
        congr 1
        simp only [implicitSlotCount, List.filter_cons, consumesSlot,
          List.length_cons, if_true]
        omega
      · rw [ihres.2.1, hb1]
        simp only [expectedEntries, hlen, hoffsetb, List.append_assoc,
          List.singleton_append]
      · rw [ihres.2.2.1, hb1]
        simp only [expectedRemoved]
    | recordDecl r =>
      have hnotbroken : b.numbering ≠ .broken := by
        rcases hnb with h | h <;> simp [h]
      have hrlook : b.nameToDeclaration.lookup r.name.text = none :=
        hLook _ (by simp [List.filterMap_cons, declName])
      have hstep := addDeclaration_record b r hnotbroken hrlook
      have hnodup' := hNodup
      simp only [List.filterMap_cons, declName, List.nodup_cons] at hnodup'
      obtain ⟨hheadnotin, hrestnodup⟩ := hnodup'
      rw [List.foldl_cons, hstep]
      set b1 : RecordBuilder :=
        { b with
            nameToDeclaration := b.nameToDeclaration ++
              [(r.name.text, .recordDecl r)] } with hb1
      have ihres := ih b1 m (by rw [hb1]; exact hrt)
        (by rw [hb1]; exact hnum)
        (by rw [hb1]; exact hnb)
        (fun d hd => hImpl d (List.mem_cons_of_mem _ hd))
        hrestnodup
        (by
          intro name hname
          have hne : name ≠ r.name.text := fun he => hheadnotin (he ▸ hname)
          rw [hb1]
          show (b.nameToDeclaration ++ _).lookup name = none
          rw [lookup_append_of_none _ _ (hLook _ (by
            simp only [List.filterMap_cons, declName]
            exact List.mem_cons_of_mem _ hname))]
          exact lookup_singleton_ne _ _ _ hne)
      refine ⟨?_, ?_, ?_, ihres.2.2.2⟩
      · have hcount : implicitSlotCount (RecordLevelDecl.recordDecl r :: rest) =
            implicitSlotCount rest := by
          simp [implicitSlotCount, List.filter_cons, consumesSlot]
        rw [ihres.1, hcount]
      · rw [ihres.2.1, hb1]
        simp only [expectedEntries, List.append_assoc, List.singleton_append]
      · rw [ihres.2.2.1, hb1]
        simp only [expectedRemoved]
    | removedDecl tok numbers =>
      have hrem : numbers = [] := hImpl _ (List.mem_cons_self _ _)
      subst hrem
      have hstep := addDeclaration_removed_implicit b tok hnb hcontains hzero
      have hrestnodup : (rest.filterMap declName).Nodup := by
        simpa [List.filterMap_cons, declName] using hNodup
      rw [List.foldl_cons, hstep]
      set b1 : RecordBuilder :=
        { b with
            numbering := .implicit
            numbers := b.numbers ++
              [(b.numbers.length : Int) +
                (if b.recordType = .enum then 1 else 0)]
            removedNumbers := b.removedNumbers ++
              [(b.numbers.length : Int) +
                (if b.recordType = .enum then 1 else 0)] } with hb1
      have ihres := ih b1 (m + 1) (by rw [hb1]; exact hrt)
        (by rw [hb1]; exact hsnoc)
        (by rw [hb1]; right; rfl)
        (fun d hd => hImpl d (List.mem_cons_of_mem _ hd))
        hrestnodup
        (by
          intro name hname
          rw [hb1]
          show b.nameToDeclaration.lookup name = none
          exact hLook _ (by
            simp only [List.filterMap_cons, declName]
            exact hname))
      refine ⟨?_, ?_, ?_, ihres.2.2.2⟩
      · rw [ihres.1]
        congr 1
        simp only [implicitSlotCount, List.filter_cons, consumesSlot,
          List.length_cons, if_true]
        omega
      · rw [ihres.2.1, hb1]
        simp only [expectedEntries]
      · rw [ihres.2.2.1, hb1]
        simp only [expectedRemoved, hlen, hoffsetb, List.append_assoc,
          List.singleton_append]

end Soia

namespace Soia

/-- Claim C10: In a record using implicit (sequential) numbering, the parser
numbers implicitly-numbered declarations (fields and bare `removed` markers)
sequentially in declaration order, starting at 0 for a struct and at 1 for
an enum: with the slot counter insertion-ordered as the builder's number
set, the registered numbers are exactly
`offset, offset+1, ..., offset+count-1`, the k-th slot-consuming
declaration (0-based) receives `offset + k` (as witnessed by the built
declaration map and removed-number list), and a user-declared enum variant
or removed marker is never implicitly assigned number 0. -/
theorem c10_implicit_numbering (recordName : Token) (rt : RecordType)
    (stableId : Option Int) (ds : List RecordLevelDecl)
    (hImpl : ∀ d ∈ ds, implicitDecl d)
    (hNodup : (ds.filterMap declName).Nodup) :
    (ds.foldl addDeclaration (RecordBuilder.init recordName rt stableId)).numbers =
        intRange (if rt = .enum then 1 else 0) (implicitSlotCount ds) ∧
      (ds.foldl addDeclaration
          (RecordBuilder.init recordName rt stableId)).nameToDeclaration =
        expectedEntries (if rt = .enum then 1 else 0) 0 ds ∧
      (ds.foldl addDeclaration
          (RecordBuilder.init recordName rt stableId)).removedNumbers =
        expectedRemoved (if rt = .enum then 1 else 0) 0 ds ∧
      (rt = .enum →
        (0 : Int) ∉ (ds.foldl addDeclaration
          (RecordBuilder.init recordName rt stableId)).numbers) := by
  have haux := addDecls_aux rt ds (RecordBuilder.init recordName rt stableId) 0
    rfl (by simp [RecordBuilder.init, intRange]) (Or.inl rfl)
    hImpl hNodup (by intro name _; rfl)
  have h1 : (ds.foldl addDeclaration
      (RecordBuilder.init recordName rt stableId)).numbers =
      intRange (if rt = .enum then 1 else 0) (implicitSlotCount ds) := by
    simpa using haux.1
  refine ⟨h1, by simpa [RecordBuilder.init] using haux.2.1,
    by simpa [RecordBuilder.init] using haux.2.2.1, ?_⟩
  intro henum hmem
  rw [h1] at hmem
  have := (intRange_mem_iff _ _ _).mp hmem
  rw [if_pos henum] at this
  omega

end Soia

namespace Soia

theorem c10_implicit_numbering_witness :
    ([RecordLevelDecl.fieldDecl ⟨⟨"MONDAY", "m", 5⟩, -1, none, none, .no⟩,
      RecordLevelDecl.removedDecl ⟨"removed", "m", 20⟩ [],
      RecordLevelDecl.fieldDecl ⟨⟨"TUESDAY", "m", 30⟩, -1, none, none, .no⟩].foldl
        addDeclaration (RecordBuilder.init ⟨"E", "m", 0⟩ .enum none)).numbers =
      intRange (if RecordType.enum = .enum then 1 else 0)
        (implicitSlotCount
          [RecordLevelDecl.fieldDecl ⟨⟨"MONDAY", "m", 5⟩, -1, none, none, .no⟩,
           RecordLevelDecl.removedDecl ⟨"removed", "m", 20⟩ [],
           RecordLevelDecl.fieldDecl ⟨⟨"TUESDAY", "m", 30⟩, -1, none, none, .no⟩]) ∧
    ([RecordLevelDecl.fieldDecl ⟨⟨"MONDAY", "m", 5⟩, -1, none, none, .no⟩,
      RecordLevelDecl.removedDecl ⟨"removed", "m", 20⟩ [],
      RecordLevelDecl.fieldDecl ⟨⟨"TUESDAY", "m", 30⟩, -1, none, none, .no⟩].foldl
        addDeclaration (RecordBuilder.init ⟨"E", "m", 0⟩ .enum none)).nameToDeclaration =
      expectedEntries (if RecordType.enum = .enum then 1 else 0) 0
        [RecordLevelDecl.fieldDecl ⟨⟨"MONDAY", "m", 5⟩, -1, none, none, .no⟩,
         RecordLevelDecl.removedDecl ⟨"removed", "m", 20⟩ [],
         RecordLevelDecl.fieldDecl ⟨⟨"TUESDAY", "m", 30⟩, -1, none, none, .no⟩] ∧
    ([RecordLevelDecl.fieldDecl ⟨⟨"MONDAY", "m", 5⟩, -1, none, none, .no⟩,
      RecordLevelDecl.removedDecl ⟨"removed", "m", 20⟩ [],
      RecordLevelDecl.fieldDecl ⟨⟨"TUESDAY", "m", 30⟩, -1, none, none, .no⟩].foldl
        addDeclaration (RecordBuilder.init ⟨"E", "m", 0⟩ .enum none)).removedNumbers =
      expectedRemoved (if RecordType.enum = .enum then 1 else 0) 0
        [RecordLevelDecl.fieldDecl ⟨⟨"MONDAY", "m", 5⟩, -1, none, none, .no⟩,
         RecordLevelDecl.removedDecl ⟨"removed", "m", 20⟩ [],
         RecordLevelDecl.fieldDecl ⟨⟨"TUESDAY", "m", 30⟩, -1, none, none, .no⟩] ∧
    (RecordType.enum = .enum →
      (0 : Int) ∉
        ([RecordLevelDecl.fieldDecl ⟨⟨"MONDAY", "m", 5⟩, -1, none, none, .no⟩,
          RecordLevelDecl.removedDecl ⟨"removed", "m", 20⟩ [],
          RecordLevelDecl.fieldDecl ⟨⟨"TUESDAY", "m", 30⟩, -1, none, none, .no⟩].foldl
            addDeclaration
            (RecordBuilder.init ⟨"E", "m", 0⟩ .enum none)).numbers) := by
  exact c10_implicit_numbering ⟨"E", "m", 0⟩ .enum none _
    (by
      intro d hd
      simp only [List.mem_cons, List.not_mem_nil, or_false] at hd
      rcases hd with rfl | rfl | rfl <;> simp [implicitDecl])
    (by decide)

/-- Claim C9 (code bug): building a record from the single declaration
`removed 2, 10;` yields `removedNumbers = [10, 2]` — the parser sorts the
removed numbers with the JavaScript default (lexicographic) comparator, so
the list is not in ascending numeric order as the claim (and the record
model's documentation) states. -/
theorem c9_removed_numbers_failing_input :
    (buildRecord ⟨"Foo", "m", 0⟩ .enum none
        [.removedDecl ⟨"removed", "m", 10⟩ [2, 10]]).1.removedNumbers =
      [10, 2] ∧
    ¬ List.Pairwise (· < ·)
      (buildRecord ⟨"Foo", "m", 0⟩ .enum none
        [.removedDecl ⟨"removed", "m", 10⟩ [2, 10]]).1.removedNumbers := by
  constructor
  · rfl
  · decide

end Soia

namespace Soia

theorem toInt32_emod (x : Int) : toInt32 x % 2 ^ 32 = x % 2 ^ 32 := by
  unfold toInt32
  omega

theorem toInt32_modeq (x : Int) : toInt32 x ≡ x [ZMOD (2 ^ 32 : Nat)] := by
  have := toInt32_emod x
  unfold Int.ModEq
  push_cast
  omega

theorem hashFold_modeq (l : List Char) :
    ∀ (h : Int) (n : Nat), h ≡ (n : Int) [ZMOD (2 ^ 32 : Nat)] →
      (l.foldl (fun hash c => toInt32 (toInt32 (hash * 32) - hash + (c.toNat : Int))) h) ≡
        ((l.foldl (fun h c => (h * 31 + c.toNat) % 2 ^ 32) n : Nat) : Int)
          [ZMOD (2 ^ 32 : Nat)] := by
  induction l with
  | nil => intro h n hmod; simpa using hmod
  | cons c rest ih =>
    intro h n hmod
    simp only [List.foldl_cons]
    apply ih
    have step1 : toInt32 (toInt32 (h * 32) - h + (c.toNat : Int)) ≡
        h * 31 + (c.toNat : Int) [ZMOD (2 ^ 32 : Nat)] := by
      calc toInt32 (toInt32 (h * 32) - h + (c.toNat : Int))
          ≡ toInt32 (h * 32) - h + (c.toNat : Int) [ZMOD (2 ^ 32 : Nat)] :=
            toInt32_modeq _
        _ ≡ h * 32 - h + (c.toNat : Int) [ZMOD (2 ^ 32 : Nat)] :=
            Int.ModEq.add_right _ (Int.ModEq.sub_right _ (toInt32_modeq _))
        _ = h * 31 + (c.toNat : Int) := by ring_nf
    have step2 : h * 31 + (c.toNat : Int) ≡
        ((n * 31 + c.toNat) % 2 ^ 32 : Nat) [ZMOD (2 ^ 32 : Nat)] := by
      have h31 : h * 31 + (c.toNat : Int) ≡ (n : Int) * 31 + (c.toNat : Int)
          [ZMOD (2 ^ 32 : Nat)] :=
        Int.ModEq.add_right _ (Int.ModEq.mul_right _ hmod)
      have : ((n * 31 + c.toNat) % 2 ^ 32 : Nat) ≡ ((n * 31 + c.toNat : Nat) : Int)
          [ZMOD (2 ^ 32 : Nat)] := by
        unfold Int.ModEq
        push_cast
        omega
      exact h31.trans (by push_cast at this ⊢; exact this.symm)
    exact step1.trans step2

theorem specRollingHash_lt (s : String) : specRollingHash s < 2 ^ 32 := by
  unfold specRollingHash
  have : ∀ (l : List Char) (n : Nat), n < 2 ^ 32 →
      l.foldl (fun h c => (h * 31 + c.toNat) % 2 ^ 32) n < 2 ^ 32 := by
    intro l
    induction l with
    | nil => intro n hn; simpa using hn
    | cons c rest ih =>
      intro n hn
      simp only [List.foldl_cons]
      exact ih _ (Nat.mod_lt _ (by norm_num))
  exact this _ 0 (by norm_num)

theorem simpleHash_eq_spec (s : String) :
    simpleHash s = (specRollingHash s : Int) := by
  unfold simpleHash toUint32
  have hfold := hashFold_modeq s.data 0 0 (by simp [Int.ModEq])
  unfold Int.ModEq at hfold
  unfold specRollingHash
  have hlt := specRollingHash_lt s
  unfold specRollingHash at hlt
  omega

/-- Claim C8: a method declared without an explicit number receives the rolling
hash of `"modulePath:methodName"` — starting from 0, for each UTF-16 code
unit, `hash = hash * 31 + charCode` truncated to 32 bits — interpreted as an
unsigned 32-bit integer, so every implicit method number lies in
`[0, 2^32)`. -/
theorem c8_implicit_method_number (modulePath methodName : String) :
    implicitMethodNumber modulePath methodName =
      (specRollingHash (modulePath ++ ":" ++ methodName) : Int) ∧
    0 ≤ implicitMethodNumber modulePath methodName ∧
    implicitMethodNumber modulePath methodName < 2 ^ 32 := by
  unfold implicitMethodNumber
  have h := simpleHash_eq_spec (modulePath ++ ":" ++ methodName)
  have hlt := specRollingHash_lt (modulePath ++ ":" ++ methodName)
  refine ⟨h, ?_, ?_⟩
  · rw [h]
    exact Int.natCast_nonneg _
  · rw [h]
    exact_mod_cast hlt

/-- Claim C1: comparing two resolved primitive types reports exactly one
`illegal-type-change` breaking change when the pair is outside the directed
widening relation of the specification, and no breaking change when it is
inside; `primitiveTypesAreCompatible` coincides with the specification's
relation on every pair (covering the asymmetric `int32 → int64` /
`int64 → int32` cases). -/
theorem c1_primitive_widening (ms : CheckerMaps) (fuel : Nat)
    (p q : Primitive) (expr : BeforeAfter Expression) :
    primitiveTypesAreCompatible ⟨p, q⟩ = specWidens p q ∧
    (checkType ms (fuel + 1) ⟨.primitive p, .primitive q⟩ expr
        CheckerState.init).breakingChanges =
      (if specWidens p q then [] else
        [.illegalTypeChange expr ⟨.primitive p, .primitive q⟩]) ∧
    BreakingChange.kind (.illegalTypeChange expr ⟨.primitive p, .primitive q⟩) =
      "illegal-type-change" := by
  have h : primitiveTypesAreCompatible ⟨p, q⟩ = specWidens p q := by
    cases p <;> cases q <;> rfl
  refine ⟨h, ?_, rfl⟩
  simp only [checkType, h]
  by_cases hw : specWidens p q = true
  · simp [hw, CheckerState.init]
  · simp only [Bool.not_eq_true] at hw
    simp [hw, pushBreakingChange, getTokenForBreakingChange, CheckerState.init,
      BreakingChange.kind]

/-- Claim C2: when the before struct's slot count including removed numbers
exceeds the after struct's, the checker reports exactly one `missing-slots`
breaking change for the record pair — with `missingRangeStart` the after
count and `missingRangeEnd` the before count — and nothing else, because
the comparison of that record pair stops there. -/
theorem c2_missing_slots_terminal (ms : CheckerMaps) (fuel : Nat)
    (record : BeforeAfter RecordLocation) (expr : BeforeAfter Expression)
    (hb : record.before.record.recordType = .struct)
    (ha : record.after.record.recordType = .struct)
    (hlt : record.after.record.numSlotsInclRemovedNumbers <
      record.before.record.numSlotsInclRemovedNumbers) :
    (checkRecord ms (fuel + 1) record expr CheckerState.init).breakingChanges =
      [.missingSlots record expr
        record.after.record.numSlotsInclRemovedNumbers
        record.before.record.numSlotsInclRemovedNumbers] := by
  simp only [checkRecord, CheckerState.init]
  simp [hb, ha, hlt, pushBreakingChange, getTokenForBreakingChange,
    BreakingChange.kind]

theorem c2_missing_slots_terminal_witness :
    c2Record.before.record.recordType = .struct ∧
    c2Record.after.record.recordType = .struct ∧
    c2Record.after.record.numSlotsInclRemovedNumbers <
      c2Record.before.record.numSlotsInclRemovedNumbers ∧
    (checkRecord c2Maps 1 c2Record c2Expr CheckerState.init).breakingChanges =
      [.missingSlots c2Record c2Expr 2 4] :=
  ⟨rfl, rfl, by decide,
    c2_missing_slots_terminal c2Maps 0 c2Record c2Expr rfl rfl (by decide)⟩

/-- Claim C7: with module `a` importing module `b` and module `b` importing
module `a`, resolving `a` from a cold module set reports exactly the
circular-dependency error anchored on `a`'s import path token, resolving
`b` from a fresh cold module set reports it anchored on `b`'s import path
token, and both resolutions still deliver a module object. -/
theorem c7_circular_dependency_symmetric :
    (parseAndResolve c7ModuleParserFn 5 ModuleSetState.init "a" []).1.errors =
      [{ token := c7PathTokenA, message := some circularDependencyMessage }] ∧
    (parseAndResolve c7ModuleParserFn 5 ModuleSetState.init "b" []).1.errors =
      [{ token := c7PathTokenB, message := some circularDependencyMessage }] ∧
    (parseAndResolve c7ModuleParserFn 5 ModuleSetState.init "a"
      []).1.result.isSome = true ∧
    (parseAndResolve c7ModuleParserFn 5 ModuleSetState.init "b"
      []).1.result.isSome = true :=
  ⟨by decide, by decide, by decide, by decide⟩

end Soia

namespace Soia

/-- Claim C4: the recursion classification of `storeFieldRecursivity` on the
specification's examples — `struct B { b: B; }` gives `hard`,
`struct C { c: C?; }` and `struct D { d: [D]; }` give `soft`, the mutual
pair `E.f: F` / `F.e: E` gives `hard` on both fields, and
`enum G { g: G; }` gives `soft` — and, in general, a field of an enum whose
type reaches back to its own enum is always classified `soft` (a struct
field is checked for hard recursion first and then soft, while an enum
field is only ever checked for soft recursion). -/
theorem c4_recursion_classification :
    (storeFieldRecursivity c4RecordMap 10 c4RecordB).fields =
      [{ c4FieldB with isRecursive := .hard }] ∧
    fieldIsRecursive c4RecordMap 10 c4RecordB c4FieldB = .hard ∧
    fieldIsRecursive c4RecordMap 10 c4RecordC c4FieldC = .soft ∧
    fieldIsRecursive c4RecordMap 10 c4RecordD c4FieldD = .soft ∧
    fieldIsRecursive c4RecordMap 10 c4RecordE c4FieldF = .hard ∧
    fieldIsRecursive c4RecordMap 10 c4RecordF c4FieldE = .hard ∧
    fieldIsRecursive c4RecordMap 10 c4RecordG c4FieldG = .soft ∧
    ∀ (rm : List (String × RecordLocation)) (fuel : Nat)
      (record : RecordData) (field : Field) (t : ResolvedType),
      record.recordType = .enum → field.type = some t →
      (collectTypeDeps rm fuel t .soft []).contains record.key = true →
      fieldIsRecursive rm fuel record field = .soft := by
  refine ⟨by decide, by decide, by decide, by decide, by decide, by decide,
    by decide, ?_⟩
  intro rm fuel record field t hrt htype hdep
  unfold fieldIsRecursive
  simp only [htype, hrt]
  rw [List.elem_iff] at hdep
  simp [List.find?, decide_eq_true hdep]

end Soia

namespace Soia

theorem refImpl_isSome (rm : List (String × RecordLocation)) :
    ∀ t, (referencesImplicitlyNumberedRecord rm t).isSome =
      specDirectlyReferencesImplicit rm t := by
  intro t
  induction t with
  | array item key ih =>
    simp only [referencesImplicitlyNumberedRecord,
      specDirectlyReferencesImplicit]
    exact ih
  | optional other ih =>
    simp only [referencesImplicitlyNumberedRecord,
      specDirectlyReferencesImplicit]
    exact ih
  | primitive p => rfl
  | record key rt tok =>
    simp only [referencesImplicitlyNumberedRecord,
      specDirectlyReferencesImplicit]
    cases h : rm.lookup key with
    | none => rfl
    | some loc =>
      by_cases hi : loc.record.numbering = .implicit
      · simp [hi]
      · simp [hi]

/-- Claim C6 counterexample: in the explicitly numbered struct `S { a: [I] = 0; }`
whose field type references the implicitly numbered struct `I` only through
an array, `verifyNumberingConstraint` does report the numbering-constraint
error — the claim states a reference that goes only through an array is not
reported. -/
theorem c6_array_reference_reported :
    c6RecordS.numbering = .explicit ∧
    c6FieldA.type =
      some (.array (.record "m:100" .struct ⟨"I", "m", 118⟩) none) ∧
    (c6RecordMap.lookup "m:100").map (fun l => l.record.numbering) =
      some .implicit ∧
    verifyNumberingConstraint c6RecordMap c6RecordS =
      [{ token := ⟨"I", "m", 118⟩,
         message := some ("Field type references a struct with implicit " ++
           "numbering, but field belongs to a struct with explicit " ++
           "numbering") }] :=
  ⟨rfl, rfl, rfl, by decide⟩

/-- Claim C6 (amended): for a record in a resolved module, a numbering-constraint
error is reported if and only if the record uses explicit numbering and
some field's type references a record using implicit numbering, where the
reference relation does traverse array items and optional wrappers (but
does not descend into the fields of referenced records). -/
theorem c6_numbering_constraint (rm : List (String × RecordLocation))
    (record : RecordData) :
    verifyNumberingConstraint rm record ≠ [] ↔
      record.numbering = .explicit ∧
        ∃ f ∈ record.fields, ∃ t, f.type = some t ∧
          specDirectlyReferencesImplicit rm t = true := by
  unfold verifyNumberingConstraint
  by_cases hn : record.numbering = .explicit
  · rw [if_neg (by simp [hn])]
    simp only [hn, true_and, Ne, List.filterMap_eq_nil_iff]
    push_neg
    constructor
    · rintro ⟨f, hf, hne⟩
      refine ⟨f, hf, ?_⟩
      split at hne
      · exact absurd rfl hne
      · rename_i t ht
        split at hne
        · exact absurd rfl hne
        · rename_i rt tok hr
          exact ⟨t, ht, by rw [← refImpl_isSome, hr]; rfl⟩
    · rintro ⟨f, hf, t, ht, hspec⟩
      refine ⟨f, hf, ?_⟩
      split
      · rename_i ht0
        rw [ht0] at ht
        exact absurd ht (by simp)
      · rename_i t2 ht2
        rw [ht2] at ht
        injection ht with hteq
        subst hteq
        rw [← refImpl_isSome] at hspec
        split
        · rename_i hr
          rw [hr] at hspec
          simp at hspec
        · simp
  · rw [if_pos (by simp [hn])]
    simp [hn]

end Soia

namespace Soia

theorem setSparse_length (l : List (Option DenseJson)) (i : Nat)
    (v : DenseJson) : (setSparse l i v).length = max l.length (i + 1) := by
  unfold setSparse
  by_cases h : l.length < i + 1
  · rw [if_pos h]
    simp only [List.length_set, List.length_append, List.length_replicate]
    omega
  · rw [if_neg h]
    simp only [List.length_set]
    omega

theorem structFields_invariant
    (recurse : Value → ResolvedType → Option DenseJson × List SoiaError)
    (token : Token) (entries : List (String × Token × Value)) :
    ∀ (fields : List Field) (json : List (Option DenseJson)) (n : Nat)
      (g : Bool) (errs : List SoiaError), n ≤ json.length →
      (structFieldsToDenseJson recurse token entries fields
          (json, n, g, errs)).2.1 =
        specTrimmedLengthFrom recurse entries fields n ∧
      (structFieldsToDenseJson recurse token entries fields
          (json, n, g, errs)).2.1 ≤
        (structFieldsToDenseJson recurse token entries fields
          (json, n, g, errs)).1.length := by
  intro fields
  induction fields with
  | nil =>
    intro json n g errs hle
    exact ⟨rfl, by simpa [structFieldsToDenseJson, specTrimmedLengthFrom]
      using hle⟩
  | cons field rest ih =>
    intro json n g errs hle
    cases hft : field.type with
    | none =>
      have hstep : structFieldsToDenseJson recurse token entries
          (field :: rest) (json, n, g, errs) =
          structFieldsToDenseJson recurse token entries rest
            (json, n, false, errs) := by
        simp only [structFieldsToDenseJson, hft]
      have hspec : specTrimmedLengthFrom recurse entries (field :: rest) n =
          specTrimmedLengthFrom recurse entries rest n := by
        simp only [specTrimmedLengthFrom, List.foldl_cons, hft]
      rw [hstep, hspec]
      exact ih json n false errs hle
    | some t =>
      cases hlk : entries.lookup field.name.text with
      | none =>
        have hstep : structFieldsToDenseJson recurse token entries
            (field :: rest) (json, n, g, errs) =
            structFieldsToDenseJson recurse token entries rest
              (json, n, false, errs ++
                [{ token := token
                   message := some ("Missing entry: " ++ field.name.text) }]) := by
          simp only [structFieldsToDenseJson, hft, hlk]
        have hspec : specTrimmedLengthFrom recurse entries (field :: rest) n =
            specTrimmedLengthFrom recurse entries rest n := by
          simp only [specTrimmedLengthFrom, List.foldl_cons, hft, hlk]
        rw [hstep, hspec]
        exact ih _ _ _ _ hle
      | some pv =>
        rcases pv with ⟨ptok, pval⟩
        rcases hrec : recurse pval t with ⟨vjo, verrs⟩
        cases vjo with
        | none =>
          have hstep : structFieldsToDenseJson recurse token entries
              (field :: rest) (json, n, g, errs) =
              structFieldsToDenseJson recurse token entries rest
                (json, n, false, errs ++ verrs) := by
            simp only [structFieldsToDenseJson, hft, hlk, hrec]
          have hspec : specTrimmedLengthFrom recurse entries (field :: rest) n =
              specTrimmedLengthFrom recurse entries rest n := by
            simp only [specTrimmedLengthFrom, List.foldl_cons, hft, hlk, hrec]
          rw [hstep, hspec]
          exact ih _ _ _ _ hle
        | some vj =>
          by_cases hdv : hasDefaultValueB t vj
          · have hstep : structFieldsToDenseJson recurse token entries
                (field :: rest) (json, n, g, errs) =
                structFieldsToDenseJson recurse token entries rest
                  (setSparse json field.number.toNat vj, n, g,
                    errs ++ verrs) := by
              simp only [structFieldsToDenseJson, hft, hlk, hrec, hdv,
                if_true]
            have hspec : specTrimmedLengthFrom recurse entries
                (field :: rest) n =
                specTrimmedLengthFrom recurse entries rest n := by
              simp only [specTrimmedLengthFrom, List.foldl_cons, hft, hlk,
                hrec, hdv, if_true]
            rw [hstep, hspec]
            refine ih _ _ _ _ ?_
            rw [setSparse_length]
            omega
          · rw [Bool.not_eq_true] at hdv
            have hstep : structFieldsToDenseJson recurse token entries
                (field :: rest) (json, n, g, errs) =
                structFieldsToDenseJson recurse token entries rest
                  (setSparse json field.number.toNat vj,
                    max n (field.number.toNat + 1), g, errs ++ verrs) := by
              simp only [structFieldsToDenseJson, hft, hlk, hrec, hdv,
                Bool.false_eq_true, if_false]
            have hspec : specTrimmedLengthFrom recurse entries
                (field :: rest) n =
                specTrimmedLengthFrom recurse entries rest
                  (max n (field.number.toNat + 1)) := by
              simp only [specTrimmedLengthFrom, List.foldl_cons, hft, hlk,
                hrec, hdv, Bool.false_eq_true, if_false]
            rw [hstep, hspec]
            refine ih _ _ _ _ ?_
            rw [setSparse_length]
            omega

end Soia

namespace Soia

/-- Claim C5: when `structValueToDenseJson` successfully lowers a struct-typed
constant value to a dense JSON array, the array's length is exactly one plus
the highest field number holding a non-default value (zero when there is
none, computed by `specTrimmedLength` over the same recursive lowering); in
particular when every field holds its type's default value the result is
the empty JSON array. -/
theorem c5_struct_constant_trimming
    (recurse : Value → ResolvedType → Option DenseJson × List SoiaError)
    (token : Token) (entries : List (String × Token × Value)) (ip : Bool)
    (struct : RecordData) (js : List DenseJson) (errs : List SoiaError)
    (h : structValueToDenseJson recurse (.object token entries ip) struct =
      (some (.jsonArr js), errs)) :
    js.length = specTrimmedLength recurse entries struct.fields ∧
    (specTrimmedLength recurse entries struct.fields = 0 → js = []) := by
  have hfin : ∀ (G : Bool),
      (List.take (structFieldsToDenseJson recurse token entries struct.fields
          ([], 0, G, [])).2.1
        (List.map (fun o => o.getD (DenseJson.jsonStr "0"))
          (structFieldsToDenseJson recurse token entries struct.fields
            ([], 0, G, [])).1)).length =
        specTrimmedLength recurse entries struct.fields := by
    intro G
    have hinv := structFields_invariant recurse token entries struct.fields
      [] 0 G [] (by simp)
    rw [List.length_take, List.length_map]
    unfold specTrimmedLength
    omega
  have hfin2 : ∀ (G : Bool),
      specTrimmedLength recurse entries struct.fields = 0 →
      List.take (structFieldsToDenseJson recurse token entries struct.fields
          ([], 0, G, [])).2.1
        (List.map (fun o => o.getD (DenseJson.jsonStr "0"))
          (structFieldsToDenseJson recurse token entries struct.fields
            ([], 0, G, [])).1) = [] := by
    intro G h0
    have hinv := structFields_invariant recurse token entries struct.fields
      [] 0 G [] (by simp)
    unfold specTrimmedLength at h0
    have hz : (structFieldsToDenseJson recurse token entries struct.fields
        ([], 0, G, [])).2.1 = 0 := by omega
    rw [hz]
    simp
  simp only [structValueToDenseJson] at h
  split at h
  · exact absurd h (by simp)
  · rename_i hg
    rw [Prod.mk.injEq] at h
    obtain ⟨h1, h2⟩ := h
    injection h1 with h3
    injection h3 with h4
    rw [← h4]
    exact ⟨hfin _, hfin2 _⟩

end Soia

namespace Soia

theorem c5_struct_constant_trimming_witness :
    ([] : List DenseJson).length =
      specTrimmedLength (valueToDenseJson [] 3)
        [("x", ⟨"x", "m", 221⟩, .literal ⟨"0", "m", 224⟩),
         ("y", ⟨"y", "m", 226⟩, .literal ⟨"0", "m", 229⟩)] c5StructP.fields ∧
    (specTrimmedLength (valueToDenseJson [] 3)
        [("x", ⟨"x", "m", 221⟩, .literal ⟨"0", "m", 224⟩),
         ("y", ⟨"y", "m", 226⟩, .literal ⟨"0", "m", 229⟩)] c5StructP.fields = 0 →
      ([] : List DenseJson) = []) :=
  c5_struct_constant_trimming (valueToDenseJson [] 3) ⟨"\x7b", "m", 220⟩
    [("x", ⟨"x", "m", 221⟩, .literal ⟨"0", "m", 224⟩),
     ("y", ⟨"y", "m", 226⟩, .literal ⟨"0", "m", 229⟩)] false c5StructP [] []
    (by rfl)

end Soia

namespace Soia

theorem lookup_map_replace {α : Type} (k : String) (v : α) :
    ∀ (m : List (String × α)) (j : String),
      ((m.map fun e => if e.1 = k then (k, v) else e).lookup j).isSome =
        (m.lookup j).isSome := by
  intro m
  induction m with
  | nil => intro j; rfl
  | cons e rest ih =>
    intro j
    rcases e with ⟨a, b⟩
    by_cases ha : a = k
    · subst ha
      simp only [List.map_cons, if_true]
      simp only [List.lookup]
      cases hj : (j == a) <;> simp [hj, ih]
    · simp only [List.map_cons, ha, if_false]
      simp only [List.lookup]
      cases hj : (j == a) <;> simp [hj, ih]

theorem lookup_append_or {α : Type} (l1 l2 : List (String × α)) (k : String) :
    (l1 ++ l2).lookup k = (l1.lookup k).or (l2.lookup k) := by
  induction l1 with
  | nil => simp [List.lookup]
  | cons e rest ih =>
    rcases e with ⟨a, b⟩
    simp only [List.cons_append, List.lookup]
    cases hj : (k == a)
    · simpa [hj] using ih
    · simp [hj, Option.or]

theorem lookup_mapSet_isSome {α : Type} (m : List (String × α))
    (k j : String) (v : α) :
    ((mapSet m k v).lookup j).isSome = ((m.lookup j).isSome || (j == k)) := by
  unfold mapSet
  by_cases hk : (m.lookup k).isSome
  · rw [if_pos hk, lookup_map_replace]
    by_cases hj : j = k
    · subst hj
      simp [hk]
    · rw [show (j == k) = false from beq_eq_false_iff_ne.mpr hj]
      simp
  · rw [if_neg hk, lookup_append_or]
    cases hmj : m.lookup j
    · simp only [List.lookup, Option.or, Option.isSome_none, Bool.false_or]
      cases hjk : (j == k) <;> simp [hjk]
    · simp [Option.or]

theorem foldl_mapSet_isSome (l : List RecordLocation) :
    ∀ (m : List (String × RecordLocation)) (j : String),
      (m.lookup j).isSome = true →
      ((l.foldl (fun acc rl => mapSet acc rl.record.key rl) m).lookup
        j).isSome = true := by
  induction l with
  | nil => intro m j h; exact h
  | cons rl rest ih =>
    intro m j h
    rw [List.foldl_cons]
    exact ih _ _ (by rw [lookup_mapSet_isSome, h, Bool.true_or])

theorem mem_foldl_mapSet (l : List RecordLocation) :
    ∀ (m : List (String × RecordLocation)) (rl : RecordLocation), rl ∈ l →
      ((l.foldl (fun acc r => mapSet acc r.record.key r) m).lookup
        rl.record.key).isSome = true := by
  induction l with
  | nil => intro _ _ h; cases h
  | cons r rest ih =>
    intro m rl hmem
    rw [List.foldl_cons]
    rcases List.mem_cons.mp hmem with rfl | hmem2
    · exact foldl_mapSet_isSome rest _ _
        (by rw [lookup_mapSet_isSome]; simp)
    · exact ih _ _ hmem2

/-- Claim C3 counterexample: module `m` parses cleanly but its only record
contains a field whose type `Bar` cannot be resolved, so `parseAndResolve`
reports a resolution error — yet the record `m:7` is present in the
module set's committed cross-module record map, contradicting the claim
that the records of a module are committed only when the module resolves
with zero errors. -/
theorem c3_committed_despite_errors :
    (parseAndResolve c3ModuleParserFn 2 ModuleSetState.init "m" []).1.errors =
      [makeCannotFindNameError c3BarRefToken] ∧
    (parseAndResolve c3ModuleParserFn 2 ModuleSetState.init "m"
        []).1.errors ≠ [] ∧
    ((parseAndResolve c3ModuleParserFn 2 ModuleSetState.init "m"
        []).2.recordMap.lookup "m:7").isSome = true :=
  ⟨by decide, by decide, by decide⟩

/-- Claim C3 (amended): a module's records are committed to the cross-module
record map exactly when the module parses and its import phase is clean —
if the parser returns a module with no parse errors and processing its
imports (including import-path merging) produces no errors, every record of
the module is present in the record map after `doParseAndResolve`, even
when later phases (type resolution, numbering, constants, unused imports)
report errors; only parse-phase or import-phase errors prevent the
commit. -/
theorem c3_records_committed_after_import_phase (pr : String → SResult Module)
    (resolveFn : ModuleSetState → String → List String →
      SResult Module × ModuleSetState)
    (fuel : Nat) (st : ModuleSetState) (modulePath : String)
    (ips : List String) (module0 : Module) (pe : List SoiaError)
    (hparse : pr modulePath = ⟨some module0, pe⟩)
    (hclean : pe ++
      (processImports resolveFn modulePath ips st [] [] []
        module0.declarations).2.2.1 ++
      (mergeImports (processImports resolveFn modulePath ips st [] [] []
        module0.declarations).2.1).2 = []) :
    ∀ rl ∈ module0.records,
      ((doParseAndResolve pr resolveFn fuel st modulePath
        ips).2.recordMap.lookup rl.record.key).isSome = true := by
  intro rl hrl
  simp only [doParseAndResolve, hparse]
  rw [hclean]
  rw [if_neg (by simp)]
  apply foldl_mapSet_isSome
  apply foldl_mapSet_isSome
  exact mem_foldl_mapSet _ _ _ hrl

end Soia

namespace Soia

theorem c3_records_committed_after_import_phase_witness :
    c3CleanParserFn "n" = ⟨some c3CleanModule, []⟩ ∧
    ([] : List SoiaError) ++
      (processImports (fun st _ _ => (⟨none, []⟩, st)) "n" []
        ModuleSetState.init [] [] [] c3CleanModule.declarations).2.2.1 ++
      (mergeImports (processImports (fun st _ _ => (⟨none, []⟩, st)) "n" []
        ModuleSetState.init [] [] [] c3CleanModule.declarations).2.1).2 =
      [] ∧
    ((doParseAndResolve c3CleanParserFn (fun st _ _ => (⟨none, []⟩, st)) 2
        ModuleSetState.init "n" []).2.recordMap.lookup "n:5").isSome = true :=
  ⟨rfl, by decide,
    c3_records_committed_after_import_phase c3CleanParserFn
      (fun st _ _ => (⟨none, []⟩, st)) 2 ModuleSetState.init "n" []
      c3CleanModule [] rfl (by decide) ⟨c3BarRecord, [c3BarRecord], "n"⟩
      (List.mem_singleton.mpr rfl)⟩

end Soia
